import Mathlib

/-!
Verification of the virtual-memory subsystem of the ErrorOS teaching kernel
(RISC-V Sv39, three-level page tables, 4 KiB pages).

The embedding models:
- `src/os/src/memory/mod.rs`: address decomposition (`VirtAddr`), page-table
  entries (`PageTableEntry`), the bump frame allocator
  (`SimpleFrameAllocator`), and the module-level `translate_addr`;
- `src/os/src/memory/paging.rs`: `walk_page_table`, `map_page`, `unmap_page`;
- `src/os/src/memory/address_space.rs`: `MemoryAreaType::default_flags` and
  the page loop of `AddressSpace::map_region_identity`.

Machine integers (`usize`) are modelled as `Nat`, with an explicit `% 2 ^ 64`
at the only places where 64-bit wrap-around is reachable (entry construction
in `PageTableEntry.set`, the rounding additions in `SimpleFrameAllocator.new`
and the page count of a region).  Physical memory holding the page tables is
modelled as a function `Memory : Nat → Nat → Nat` sending a table's base
address and an entry index to the raw 8-byte entry stored there; the raw
pointer reads and writes of the Rust code become reads and pointwise updates
of that function.
-/

namespace ErrorOS

/-- `PAGE_SIZE` from `memory/mod.rs`. -/
def PAGE_SIZE : Nat := 4096

/-- The number of values of a 64-bit `usize`. -/
def USIZE_CARD : Nat := 2 ^ 64

/-! ### Virtual address decomposition (`VirtAddr`, `memory/mod.rs`) -/

/-- `VirtAddr::page_offset`: low 12 bits. -/
def page_offset (v : Nat) : Nat := v &&& 0xFFF

/-- `VirtAddr::vpn0`: bits 12-20. -/
def vpn0 (v : Nat) : Nat := (v >>> 12) &&& 0x1FF

/-- `VirtAddr::vpn1`: bits 21-29. -/
def vpn1 (v : Nat) : Nat := (v >>> 21) &&& 0x1FF

/-- `VirtAddr::vpn2`: bits 30-38. -/
def vpn2 (v : Nat) : Nat := (v >>> 30) &&& 0x1FF

/-! ### Page-table entries (`PageTableEntry`, `memory/mod.rs`)

A page-table entry is the raw 8-byte value `entry : usize`, modelled as a
`Nat` (below `2 ^ 64` whenever it was produced by `PageTableEntry.set`). -/

namespace PageTableEntry

/-- `PageTableEntry::is_valid`: `(self.entry & 1) != 0`. -/
def is_valid (e : Nat) : Bool := (e &&& 1) != 0

/-- `PageTableEntry::is_leaf`: `(self.entry & 0xE) != 0` (any of R/W/X). -/
def is_leaf (e : Nat) : Bool := (e &&& 0xE) != 0

/-- `PageTableEntry::ppn`: `(self.entry >> 10) & 0xFFF_FFFF_FFFF`. -/
def ppn (e : Nat) : Nat := (e >>> 10) &&& 0xFFFFFFFFFFF

/-- `PageTableEntry::phys_addr`: `self.ppn() << 12`. -/
def phys_addr (e : Nat) : Nat := ppn e <<< 12

/-- `PageTableEntry::set`: `self.entry = (ppn << 10) | flags`, with the
64-bit truncation of the machine shift made explicit. -/
def set (p fl : Nat) : Nat := ((p <<< 10) ||| fl) % USIZE_CARD

/-- `PageTableEntry::flags`: `self.entry & 0xFF`. -/
def flags (e : Nat) : Nat := e &&& 0xFF

end PageTableEntry

/-- `PageTableFlags::Valid as usize`. -/
def FLAG_VALID : Nat := 1

/-- `PageTableFlags::Read as usize`. -/
def FLAG_READ : Nat := 2

/-- `PageTableFlags::Write as usize`. -/
def FLAG_WRITE : Nat := 4

/-- `PageTableFlags::Execute as usize`. -/
def FLAG_EXECUTE : Nat := 8

/-! ### Physical memory holding the page tables -/

/-- Physical memory as seen through page tables: `mem t i` is the raw entry
at index `i` of the page table whose base physical address is `t`
(the Rust code reads it as `(*(t as *const PageTable)).entries[i]`). -/
abbrev Memory := Nat → Nat → Nat

/-- Store entry value `e` at index `i` of the table at base address `t`
(a single `PageTableEntry` assignment through a raw pointer). -/
def update_entry (mem : Memory) (t i e : Nat) : Memory :=
  fun t' i' => if t' = t then (if i' = i then e else mem t' i') else mem t' i'

/-- `PageTable::zero` on the table at base address `t`. -/
def zero_table (mem : Memory) (t : Nat) : Memory :=
  fun t' i' => if t' = t then 0 else mem t' i'

/-! ### Frame allocator (`SimpleFrameAllocator`, `memory/mod.rs`) -/

/-- `SimpleFrameAllocator`: a bump allocator described by its cursor
(`next_frame`) and exclusive bound (`end_frame`), both frame numbers. -/
structure SimpleFrameAllocator where
  next_frame : Nat
  end_frame : Nat
deriving DecidableEq

/-- `SimpleFrameAllocator::new`: cursor `(kernel_end + PAGE_SIZE - 1) / PAGE_SIZE`,
bound `memory_end / PAGE_SIZE`, with the 64-bit wrap of the addition made
explicit. -/
def SimpleFrameAllocator.new (kernel_end memory_end : Nat) : SimpleFrameAllocator :=
  { next_frame := ((kernel_end + PAGE_SIZE - 1) % USIZE_CARD) / PAGE_SIZE,
    end_frame := memory_end / PAGE_SIZE }

/-- `PhysFrame::containing_address`: `addr & !0xFFF`. -/
def frame_containing_address (addr : Nat) : Nat := addr &&& 0xFFFFFFFFFFFFF000

/-- `SimpleFrameAllocator::allocate`: returns the start address of the frame
at the cursor and the advanced allocator, or `none` once the cursor reaches
the bound. -/
def SimpleFrameAllocator.allocate (a : SimpleFrameAllocator) :
    Option (Nat × SimpleFrameAllocator) :=
  if a.next_frame ≥ a.end_frame then none
  else some (frame_containing_address (a.next_frame * PAGE_SIZE),
    { next_frame := a.next_frame + 1, end_frame := a.end_frame })

/-! ### Page-table walk (`walk_page_table`, `memory/paging.rs`) -/

/-- `walk_page_table(root_paddr, vaddr)`: the three-level Sv39 walk, with
superpage short-circuiting at levels 2 and 1. -/
def walk_page_table (mem : Memory) (root_paddr vaddr : Nat) : Option Nat :=
  let pte2 := mem root_paddr (vpn2 vaddr)
  if PageTableEntry.is_valid pte2 = false then none
  else if PageTableEntry.is_leaf pte2 then
    some (PageTableEntry.phys_addr pte2 + (vaddr &&& 0x3FFFFFFF))
  else
    let pte1 := mem (PageTableEntry.phys_addr pte2) (vpn1 vaddr)
    if PageTableEntry.is_valid pte1 = false then none
    else if PageTableEntry.is_leaf pte1 then
      some (PageTableEntry.phys_addr pte1 + (vaddr &&& 0x1FFFFF))
    else
      let pte0 := mem (PageTableEntry.phys_addr pte1) (vpn0 vaddr)
      if PageTableEntry.is_valid pte0 = false then none
      else some (PageTableEntry.phys_addr pte0 + page_offset vaddr)

/-! ### Map operation (`map_page`, `memory/paging.rs`)

`map_page` mutates the page tables through raw pointers and the allocator in
place, and returns `Result<(), &'static str>`.  The embedding threads the
memory and the allocator explicitly: the result is the `Result` together
with the memory and allocator as they stand when the function returns
(partial effects on the error paths included, exactly as in the source). -/

/-- Level-0 step of `map_page`: `t0` is the base address of the level-0
table reached; fail if the indexed entry is already valid, otherwise install
the leaf `set(paddr >> 12, flags | Valid)`. -/
def map_page_l0 (mem : Memory) (vaddr paddr fl : Nat)
    (alloc : SimpleFrameAllocator) (t0 : Nat) :
    Except String Unit × Memory × SimpleFrameAllocator :=
  let pte0 := mem t0 (vpn0 vaddr)
  if PageTableEntry.is_valid pte0 then (.error "Page already mapped", mem, alloc)
  else
    (.ok (), update_entry mem t0 (vpn0 vaddr)
      (PageTableEntry.set (paddr >>> 12) (fl ||| FLAG_VALID)), alloc)

/-- Level-1 step of `map_page`: `t1` is the base address of the level-1
table reached; descend if the indexed entry is valid, otherwise allocate a
fresh frame, install it as a branch entry (`Valid` only) and zero it. -/
def map_page_l1 (mem : Memory) (vaddr paddr fl : Nat)
    (alloc : SimpleFrameAllocator) (t1 : Nat) :
    Except String Unit × Memory × SimpleFrameAllocator :=
  let pte1 := mem t1 (vpn1 vaddr)
  if PageTableEntry.is_valid pte1 then
    map_page_l0 mem vaddr paddr fl alloc (PageTableEntry.phys_addr pte1)
  else
    match alloc.allocate with
    | none => (.error "Out of memory", mem, alloc)
    | some (t0, alloc') =>
      let mem' := zero_table
        (update_entry mem t1 (vpn1 vaddr) (PageTableEntry.set (t0 >>> 12) FLAG_VALID)) t0
      map_page_l0 mem' vaddr paddr fl alloc' t0

/-- `map_page(root_table, vaddr, paddr, flags, allocator)`: level-2 step,
then `map_page_l1`, then `map_page_l0`. -/
def map_page (mem : Memory) (root vaddr paddr fl : Nat)
    (alloc : SimpleFrameAllocator) :
    Except String Unit × Memory × SimpleFrameAllocator :=
  let pte2 := mem root (vpn2 vaddr)
  if PageTableEntry.is_valid pte2 then
    map_page_l1 mem vaddr paddr fl alloc (PageTableEntry.phys_addr pte2)
  else
    match alloc.allocate with
    | none => (.error "Out of memory", mem, alloc)
    | some (t1, alloc') =>
      let mem' := zero_table
        (update_entry mem root (vpn2 vaddr) (PageTableEntry.set (t1 >>> 12) FLAG_VALID)) t1
      map_page_l1 mem' vaddr paddr fl alloc' t1

/-! ### Unmap operation (`unmap_page`, `memory/paging.rs`) -/

/-- `unmap_page(root_table, vaddr)`: walk the three levels checking only
validity; on success capture the leaf's physical address and clear the
level-0 entry (`*pte0 = PageTableEntry::new()`, i.e. `0`). -/
def unmap_page (mem : Memory) (root vaddr : Nat) :
    Except String Nat × Memory :=
  let pte2 := mem root (vpn2 vaddr)
  if PageTableEntry.is_valid pte2 = false then (.error "Page not mapped", mem)
  else
    let t1 := PageTableEntry.phys_addr pte2
    let pte1 := mem t1 (vpn1 vaddr)
    if PageTableEntry.is_valid pte1 = false then (.error "Page not mapped", mem)
    else
      let t0 := PageTableEntry.phys_addr pte1
      let pte0 := mem t0 (vpn0 vaddr)
      if PageTableEntry.is_valid pte0 = false then (.error "Page not mapped", mem)
      else
        (.ok (PageTableEntry.phys_addr pte0), update_entry mem t0 (vpn0 vaddr) 0)

/-! ### Module-level translate functions -/

/-- `memory::paging::translate_addr`: reads `satp`, rebuilds the root table
address as `ppn << 12` and performs the real walk.  The `satp` PPN is passed
explicitly since it is hardware state. -/
def paging_translate_addr (mem : Memory) (satp_ppn vaddr : Nat) : Option Nat :=
  walk_page_table mem (satp_ppn <<< 12) vaddr

/-- `memory::translate_addr` (in `mod.rs`, distinct from the paging one):
reads `satp`, builds `_root_paddr = ppn << 12`, discards it, and returns
`Some(PhysAddr::new(vaddr.as_usize()))`. -/
def translate_addr (satp_ppn vaddr : Nat) : Option Nat :=
  let _root_paddr := satp_ppn <<< 12
  some vaddr

/-! ### Memory area kinds (`address_space.rs`) -/

/-- `MemoryAreaType`. -/
inductive MemoryAreaType where
  | Code
  | Data
  | Heap
  | Stack
  | Shared
deriving DecidableEq

/-- `MemoryAreaType::default_flags`. -/
def MemoryAreaType.default_flags : MemoryAreaType → Nat
  | .Code => FLAG_VALID ||| FLAG_READ ||| FLAG_EXECUTE
  | .Data | .Heap | .Stack => FLAG_VALID ||| FLAG_READ ||| FLAG_WRITE
  | .Shared => FLAG_VALID ||| FLAG_READ ||| FLAG_WRITE

/-- `MemoryArea::page_count` for a region of `size` bytes:
`(size + PAGE_SIZE - 1) / PAGE_SIZE`, with the 64-bit wrap of the addition
made explicit. -/
def region_page_count (size : Nat) : Nat :=
  ((size + PAGE_SIZE - 1) % USIZE_CARD) / PAGE_SIZE

/-- The page loop of `AddressSpace::map_region_identity`: for `n` remaining
pages, map `addr ↦ addr` and continue at `addr + PAGE_SIZE`; the `?` of the
source propagates the first error, keeping the partial effects. -/
def map_pages_identity (mem : Memory) (root addr fl : Nat)
    (alloc : SimpleFrameAllocator) :
    Nat → Except String Unit × Memory × SimpleFrameAllocator
  | 0 => (.ok (), mem, alloc)
  | n + 1 =>
    match map_page mem root addr addr fl alloc with
    | (.error e, mem', alloc') => (.error e, mem', alloc')
    | (.ok _, mem', alloc') => map_pages_identity mem' root (addr + PAGE_SIZE) fl alloc' n

/-- `AddressSpace::map_region_identity(start, size, kind, allocator)`
restricted to its page-table effect: maps every page of the region onto
itself with the kind's default flags. -/
def map_region_identity (mem : Memory) (root : Nat) (start size : Nat)
    (kind : MemoryAreaType) (alloc : SimpleFrameAllocator) :
    Except String Unit × Memory × SimpleFrameAllocator :=
  map_pages_identity mem root start kind.default_flags alloc (region_page_count size)

/-! ### Iterated allocation -/

/-- State of a `SimpleFrameAllocator` after `n` calls to `allocate`
(a failed call leaves the allocator unchanged). -/
def allocate_n (a : SimpleFrameAllocator) : Nat → SimpleFrameAllocator
  | 0 => a
  | n + 1 =>
    match (allocate_n a n).allocate with
    | some (_, a') => a'
    | none => allocate_n a n

/-- Result of the `n`-th `allocate` call (0-indexed). -/
def nth_allocation (a : SimpleFrameAllocator) (n : Nat) : Option Nat :=
  ((allocate_n a n).allocate).map Prod.fst


/-- The walk algorithm exactly as the specification words it (claim C2):
fetch the level-2 entry; invalid (validity bit clear) means unmapped; a leaf
(any of the R/W/X bits set) yields page-number `<< 12` plus the low 30 bits
of the virtual address; otherwise descend by the level-1 index (leaf there
masks to the low 21 bits); otherwise descend by the level-0 index, where
invalid is unmapped and valid yields page-number `<< 12` plus the 12-bit
page offset. -/
def walk_page_table_spec (mem : Memory) (root v : Nat) : Option Nat :=
  let e2 := mem root (v / 2 ^ 30 % 512)
  if e2 % 2 = 0 then none
  else if e2 / 2 % 2 = 1 ∨ e2 / 4 % 2 = 1 ∨ e2 / 8 % 2 = 1 then
    some (e2 / 2 ^ 10 % 2 ^ 44 * 4096 + v % 2 ^ 30)
  else
    let e1 := mem (e2 / 2 ^ 10 % 2 ^ 44 * 4096) (v / 2 ^ 21 % 512)
    if e1 % 2 = 0 then none
    else if e1 / 2 % 2 = 1 ∨ e1 / 4 % 2 = 1 ∨ e1 / 8 % 2 = 1 then
      some (e1 / 2 ^ 10 % 2 ^ 44 * 4096 + v % 2 ^ 21)
    else
      let e0 := mem (e1 / 2 ^ 10 % 2 ^ 44 * 4096) (v / 2 ^ 12 % 512)
      if e0 % 2 = 0 then none
      else some (e0 / 2 ^ 10 % 2 ^ 44 * 4096 + v % 4096)


/-- The walk of `vaddr` meets an invalid entry at one of the three levels
(the not-mapped situations of the specification). -/
def walk_hits_invalid (mem : Memory) (root v : Nat) : Prop :=
  PageTableEntry.is_valid (mem root (vpn2 v)) = false ∨
  (PageTableEntry.is_leaf (mem root (vpn2 v)) = false ∧
    PageTableEntry.is_valid
      (mem (PageTableEntry.phys_addr (mem root (vpn2 v))) (vpn1 v)) = false) ∨
  (PageTableEntry.is_leaf (mem root (vpn2 v)) = false ∧
    PageTableEntry.is_leaf
      (mem (PageTableEntry.phys_addr (mem root (vpn2 v))) (vpn1 v)) = false ∧
    PageTableEntry.is_valid
      (mem (PageTableEntry.phys_addr
        (mem (PageTableEntry.phys_addr (mem root (vpn2 v))) (vpn1 v))) (vpn0 v)) = false)


/-! ### Infrastructure for region mapping (claim C8) -/

/-- Two virtual addresses index the same slot at every level. -/
def same_path (w v : Nat) : Prop :=
  vpn2 w = vpn2 v ∧ vpn1 w = vpn1 v ∧ vpn0 w = vpn0 v

/-- `t` is the base address of an intermediate (branch) table of the tree:
some valid non-leaf entry of the root, or of a level-1 table reached from
the root, points to it. -/
def is_branch_target (mem : Memory) (root t : Nat) : Prop :=
  (∃ i, i < 512 ∧ PageTableEntry.is_valid (mem root i) = true ∧
    PageTableEntry.is_leaf (mem root i) = false ∧
    PageTableEntry.phys_addr (mem root i) = t) ∨
  (∃ i j, i < 512 ∧ j < 512 ∧ PageTableEntry.is_valid (mem root i) = true ∧
    PageTableEntry.is_leaf (mem root i) = false ∧
    PageTableEntry.is_valid (mem (PageTableEntry.phys_addr (mem root i)) j) = true ∧
    PageTableEntry.is_leaf (mem (PageTableEntry.phys_addr (mem root i)) j) = false ∧
    PageTableEntry.phys_addr (mem (PageTableEntry.phys_addr (mem root i)) j) = t)

/-- Well-formedness of a page-table tree built by `map_page` from a zeroed
root with frames drawn below cursor `next`: every valid entry at levels 2
and 1 is a pure branch (`flags = Valid` only) pointing below `next * 4096`
and away from the root, and the level-1 and level-0 tables are pairwise
distinct across levels and paths. -/
structure PTInv (mem : Memory) (root next : Nat) : Prop where
  root_lt : root < next * 4096
  l2 : ∀ i, i < 512 → PageTableEntry.is_valid (mem root i) = true →
    PageTableEntry.flags (mem root i) = FLAG_VALID ∧
    PageTableEntry.phys_addr (mem root i) < next * 4096 ∧
    PageTableEntry.phys_addr (mem root i) ≠ root
  l1 : ∀ i, i < 512 → PageTableEntry.is_valid (mem root i) = true →
    ∀ j, j < 512 →
    PageTableEntry.is_valid (mem (PageTableEntry.phys_addr (mem root i)) j) = true →
    PageTableEntry.flags (mem (PageTableEntry.phys_addr (mem root i)) j) = FLAG_VALID ∧
    PageTableEntry.phys_addr (mem (PageTableEntry.phys_addr (mem root i)) j) < next * 4096 ∧
    PageTableEntry.phys_addr (mem (PageTableEntry.phys_addr (mem root i)) j) ≠ root
  t1_inj : ∀ i i', i < 512 → i' < 512 →
    PageTableEntry.is_valid (mem root i) = true →
    PageTableEntry.is_valid (mem root i') = true →
    PageTableEntry.phys_addr (mem root i) = PageTableEntry.phys_addr (mem root i') → i = i'
  t0_ne_t1 : ∀ i i' j', i < 512 → i' < 512 → j' < 512 →
    PageTableEntry.is_valid (mem root i) = true →
    PageTableEntry.is_valid (mem root i') = true →
    PageTableEntry.is_valid (mem (PageTableEntry.phys_addr (mem root i')) j') = true →
    PageTableEntry.phys_addr (mem (PageTableEntry.phys_addr (mem root i')) j') ≠
      PageTableEntry.phys_addr (mem root i)
  t0_inj : ∀ i j i' j', i < 512 → j < 512 → i' < 512 → j' < 512 →
    PageTableEntry.is_valid (mem root i) = true →
    PageTableEntry.is_valid (mem (PageTableEntry.phys_addr (mem root i)) j) = true →
    PageTableEntry.is_valid (mem root i') = true →
    PageTableEntry.is_valid (mem (PageTableEntry.phys_addr (mem root i')) j') = true →
    PageTableEntry.phys_addr (mem (PageTableEntry.phys_addr (mem root i)) j) =
      PageTableEntry.phys_addr (mem (PageTableEntry.phys_addr (mem root i')) j') →
    i = i' ∧ j = j'


/-! ### Arithmetic characterization of the bit-level accessors -/

theorem page_offset_eq (v : Nat) : page_offset v = v % 4096 := by
  unfold page_offset
  have h := Nat.and_pow_two_sub_one_eq_mod v 12
  norm_num at h
  exact h

theorem vpn0_eq (v : Nat) : vpn0 v = v / 2 ^ 12 % 512 := by
  unfold vpn0
  have h := Nat.and_pow_two_sub_one_eq_mod (v >>> 12) 9
  norm_num at h
  rw [h, Nat.shiftRight_eq_div_pow]

theorem vpn1_eq (v : Nat) : vpn1 v = v / 2 ^ 21 % 512 := by
  unfold vpn1
  have h := Nat.and_pow_two_sub_one_eq_mod (v >>> 21) 9
  norm_num at h
  rw [h, Nat.shiftRight_eq_div_pow]

theorem vpn2_eq (v : Nat) : vpn2 v = v / 2 ^ 30 % 512 := by
  unfold vpn2
  have h := Nat.and_pow_two_sub_one_eq_mod (v >>> 30) 9
  norm_num at h
  rw [h, Nat.shiftRight_eq_div_pow]

theorem vpn0_lt (v : Nat) : vpn0 v < 512 := by
  rw [vpn0_eq]; exact Nat.mod_lt _ (by norm_num)

theorem vpn1_lt (v : Nat) : vpn1 v < 512 := by
  rw [vpn1_eq]; exact Nat.mod_lt _ (by norm_num)

theorem vpn2_lt (v : Nat) : vpn2 v < 512 := by
  rw [vpn2_eq]; exact Nat.mod_lt _ (by norm_num)

theorem low30_eq (v : Nat) : v &&& 0x3FFFFFFF = v % 2 ^ 30 := by
  rw [show (0x3FFFFFFF : Nat) = 2 ^ 30 - 1 from by norm_num,
    Nat.and_pow_two_sub_one_eq_mod]

theorem low21_eq (v : Nat) : v &&& 0x1FFFFF = v % 2 ^ 21 := by
  rw [show (0x1FFFFF : Nat) = 2 ^ 21 - 1 from by norm_num,
    Nat.and_pow_two_sub_one_eq_mod]

namespace PageTableEntry

theorem is_valid_iff {e : Nat} : is_valid e = true ↔ e % 2 = 1 := by
  unfold is_valid
  rw [Nat.and_one_is_mod, bne_iff_ne]
  omega

theorem is_valid_false_iff {e : Nat} : is_valid e = false ↔ e % 2 = 0 := by
  rw [← Bool.not_eq_true, is_valid_iff]
  omega

theorem is_leaf_iff {e : Nat} : is_leaf e = true ↔ e / 2 % 8 ≠ 0 := by
  unfold is_leaf
  have h16 : e &&& 0xE = e % 16 &&& 0xE := by
    conv_lhs => rw [show (0xE : Nat) = 15 &&& 0xE from rfl, ← Nat.and_assoc]
    have h := Nat.and_pow_two_sub_one_eq_mod e 4
    norm_num at h
    rw [h]
  have key : ∀ r < 16, ((r &&& 0xE != 0) = true ↔ r / 2 % 8 ≠ 0) := by decide
  have hr : e % 16 < 16 := Nat.mod_lt _ (by norm_num)
  have hd : e / 2 % 8 = e % 16 / 2 % 8 := by omega
  rw [h16, hd]
  exact key (e % 16) hr

theorem is_leaf_false_iff {e : Nat} : is_leaf e = false ↔ e / 2 % 8 = 0 := by
  rw [← Bool.not_eq_true, is_leaf_iff]
  tauto

theorem ppn_eq (e : Nat) : ppn e = e / 2 ^ 10 % 2 ^ 44 := by
  unfold ppn
  rw [show (0xFFFFFFFFFFF : Nat) = 2 ^ 44 - 1 from by norm_num,
    Nat.and_pow_two_sub_one_eq_mod, Nat.shiftRight_eq_div_pow]

theorem phys_addr_eq (e : Nat) : phys_addr e = e / 2 ^ 10 % 2 ^ 44 * 4096 := by
  unfold phys_addr
  rw [ppn_eq, Nat.shiftLeft_eq]

theorem flags_eq (e : Nat) : flags e = e % 256 := by
  unfold flags
  have h := Nat.and_pow_two_sub_one_eq_mod e 8
  norm_num at h
  exact h

theorem set_eq {p fl : Nat} (hp : p < 2 ^ 44) (hf : fl < 2 ^ 10) :
    set p fl = p * 1024 + fl := by
  unfold set
  rw [Nat.shiftLeft_eq]
  have hor : 2 ^ 10 * p + fl = 2 ^ 10 * p ||| fl := Nat.mul_add_lt_is_or hf p
  have hlt : p * 2 ^ 10 + fl < USIZE_CARD := by
    unfold USIZE_CARD
    have : p * 2 ^ 10 < 2 ^ 44 * 2 ^ 10 :=
      Nat.mul_lt_mul_of_lt_of_le hp (Nat.le_refl _) (by norm_num)
    omega
  rw [show p * 2 ^ 10 ||| fl = 2 ^ 10 * p ||| fl by rw [Nat.mul_comm], ← hor,
    Nat.mod_eq_of_lt (by omega)]
  omega

theorem is_valid_set {p fl : Nat} (hp : p < 2 ^ 44) (hf : fl < 2 ^ 10)
    (hodd : fl % 2 = 1) : is_valid (set p fl) = true := by
  rw [is_valid_iff, set_eq hp hf]
  omega

theorem is_leaf_set_valid_only {p : Nat} (hp : p < 2 ^ 44) :
    is_leaf (set p 1) = false := by
  rw [is_leaf_false_iff, set_eq hp (by norm_num)]
  omega

theorem phys_addr_set {p fl : Nat} (hp : p < 2 ^ 44) (hf : fl < 2 ^ 10) :
    phys_addr (set p fl) = p * 4096 := by
  rw [phys_addr_eq, set_eq hp hf]
  have h1 : (p * 1024 + fl) / 2 ^ 10 = p := by omega
  rw [h1, Nat.mod_eq_of_lt hp]

theorem flags_set {p fl : Nat} (hp : p < 2 ^ 44) (hf : fl < 2 ^ 10) :
    flags (set p fl) = fl % 256 := by
  rw [flags_eq, set_eq hp hf]
  omega

end PageTableEntry

theorem or_valid_lt {fl : Nat} (hf : fl < 2 ^ 10) : fl ||| FLAG_VALID < 2 ^ 10 :=
  Nat.or_lt_two_pow hf (by decide)

theorem or_valid_odd (fl : Nat) : (fl ||| FLAG_VALID) % 2 = 1 := by
  have h := @Nat.or_mod_two_eq_one fl FLAG_VALID
  unfold FLAG_VALID at h ⊢
  omega

theorem frame_containing_aligned {b : Nat} (hb : b < 2 ^ 52) :
    frame_containing_address (b * 4096) = b * 4096 := by
  unfold frame_containing_address
  apply Nat.eq_of_testBit_eq
  intro i
  rw [Nat.testBit_land]
  have hmul : b * 4096 = 2 ^ 12 * b := by ring
  by_cases hi12 : i < 12
  · have hlow : (b * 4096).testBit i = false := by
      rw [hmul, Nat.testBit_mul_pow_two]
      simp [Nat.not_le_of_lt hi12]
    simp [hlow]
  · by_cases hi64 : i < 64
    · have hmask : (0xFFFFFFFFFFFFF000 : Nat).testBit i = true := by
        have key : ∀ j < 64, 12 ≤ j → (0xFFFFFFFFFFFFF000 : Nat).testBit j = true := by decide
        exact key i hi64 (by omega)
      simp [hmask]
    · have hhigh : (b * 4096).testBit i = false := by
        apply Nat.testBit_lt_two_pow
        calc b * 4096 < 2 ^ 52 * 4096 :=
              Nat.mul_lt_mul_of_lt_of_le hb (Nat.le_refl _) (by norm_num)
          _ = 2 ^ 64 := by norm_num
          _ ≤ 2 ^ i := Nat.pow_le_pow_right (by norm_num) (by omega)
      simp [hhigh]

/-! ### Reads of updated memories -/

theorem update_entry_hit (mem : Memory) (t i e : Nat) :
    update_entry mem t i e t i = e := by
  simp [update_entry]

theorem update_entry_miss {t' i' t i : Nat} (mem : Memory) (e : Nat)
    (h : t' ≠ t ∨ i' ≠ i) : update_entry mem t i e t' i' = mem t' i' := by
  unfold update_entry
  by_cases ht : t' = t
  · have hi : i' ≠ i := by tauto
    simp [ht, hi]
  · simp [ht]

theorem zero_table_hit (mem : Memory) (t i : Nat) : zero_table mem t t i = 0 := by
  simp [zero_table]

theorem zero_table_miss {t' t : Nat} (mem : Memory) (i : Nat) (h : t' ≠ t) :
    zero_table mem t t' i = mem t' i := by
  simp [zero_table, h]

theorem is_valid_zero : PageTableEntry.is_valid 0 = false := rfl

/-- A successful three-level walk, characterized by the three entries read. -/
theorem walk_via {M : Memory} {root w e2 e1 e0 : Nat}
    (h2 : M root (vpn2 w) = e2)
    (hv2 : PageTableEntry.is_valid e2 = true) (hl2 : PageTableEntry.is_leaf e2 = false)
    (h1 : M (PageTableEntry.phys_addr e2) (vpn1 w) = e1)
    (hv1 : PageTableEntry.is_valid e1 = true) (hl1 : PageTableEntry.is_leaf e1 = false)
    (h0 : M (PageTableEntry.phys_addr e1) (vpn0 w) = e0)
    (hv0 : PageTableEntry.is_valid e0 = true) :
    walk_page_table M root w = some (PageTableEntry.phys_addr e0 + w % 4096) := by
  simp only [walk_page_table, h2, hv2, hl2, h1, hv1, hl1, h0, hv0, page_offset_eq]
  simp

/-! ### Iterated allocation -/

theorem allocate_n_le {a : SimpleFrameAllocator} {n : Nat}
    (h : n ≤ a.end_frame - a.next_frame) :
    allocate_n a n = ⟨a.next_frame + n, a.end_frame⟩ := by
  induction n with
  | zero => simp [allocate_n]
  | succ m ih =>
    have hm := ih (by omega)
    have hlt : ¬ (a.next_frame + m ≥ a.end_frame) := by omega
    simp [allocate_n, hm, SimpleFrameAllocator.allocate, hlt]
    omega

/-- `map_page` when both intermediate entries are valid and the level-0
slot is free: descends without allocating and installs the leaf. -/
theorem map_page_install_l0 (mem : Memory) (root v p fl : Nat)
    (alloc : SimpleFrameAllocator)
    (h2 : PageTableEntry.is_valid (mem root (vpn2 v)) = true)
    (h1 : PageTableEntry.is_valid
      (mem (PageTableEntry.phys_addr (mem root (vpn2 v))) (vpn1 v)) = true)
    (h0 : PageTableEntry.is_valid
      (mem (PageTableEntry.phys_addr
        (mem (PageTableEntry.phys_addr (mem root (vpn2 v))) (vpn1 v))) (vpn0 v)) = false) :
    map_page mem root v p fl alloc =
      (.ok (),
       update_entry mem
         (PageTableEntry.phys_addr
           (mem (PageTableEntry.phys_addr (mem root (vpn2 v))) (vpn1 v)))
         (vpn0 v)
         (PageTableEntry.set (p >>> 12) (fl ||| FLAG_VALID)),
       alloc) := by
  unfold map_page map_page_l1 map_page_l0
  simp only [h2, h1, h0, if_true, Bool.false_eq_true, if_false]

/-- `map_page` from a zeroed root table with at least two frames available:
allocates two fresh frames `next·4096` and `(next+1)·4096` as the level-1
and level-0 tables and installs the leaf. -/
theorem map_page_from_zeroed (mem : Memory) (root v p fl next endf : Nat)
    (hroot : ∀ i, mem root i = 0)
    (hfr : next + 2 ≤ endf) (hend : endf ≤ 2 ^ 44) :
    map_page mem root v p fl ⟨next, endf⟩ =
      (.ok (),
       update_entry
         (zero_table
           (update_entry
             (zero_table
               (update_entry mem root (vpn2 v) (PageTableEntry.set next FLAG_VALID))
               (next * 4096))
             (next * 4096) (vpn1 v) (PageTableEntry.set (next + 1) FLAG_VALID))
           ((next + 1) * 4096))
         ((next + 1) * 4096) (vpn0 v)
         (PageTableEntry.set (p >>> 12) (fl ||| FLAG_VALID)),
       ⟨next + 2, endf⟩) := by
  have hb1 : next < 2 ^ 52 := by omega
  have hb2 : next + 1 < 2 ^ 52 := by omega
  have halloc1 : SimpleFrameAllocator.allocate ⟨next, endf⟩ =
      some (next * 4096, ⟨next + 1, endf⟩) := by
    unfold SimpleFrameAllocator.allocate
    rw [if_neg (by simp only [ge_iff_le, not_le]; omega)]
    simp only [PAGE_SIZE, frame_containing_aligned hb1]
  have halloc2 : SimpleFrameAllocator.allocate ⟨next + 1, endf⟩ =
      some ((next + 1) * 4096, ⟨next + 2, endf⟩) := by
    unfold SimpleFrameAllocator.allocate
    rw [if_neg (by simp only [ge_iff_le, not_le]; omega)]
    simp only [PAGE_SIZE, frame_containing_aligned hb2]
  have hs1 : (next * 4096) >>> 12 = next := by
    rw [Nat.shiftRight_eq_div_pow]; omega
  have hs2 : ((next + 1) * 4096) >>> 12 = next + 1 := by
    rw [Nat.shiftRight_eq_div_pow]; omega
  unfold map_page map_page_l1 map_page_l0
  simp only [hroot, is_valid_zero, Bool.false_eq_true, if_false, halloc1, halloc2,
    hs1, hs2, zero_table_hit]

/-! ### Claim theorems -/

/-- C7: the page-table-entry binary layout.  The raw entry is an 8-byte
value: bits 0-7 are the flags (`flags e = e &&& 0xFF = e % 256`), the
physical page number sits at bits 10 and up (`ppn e = (e >>> 10)` masked to
44 bits `= e / 2^10 % 2^44`), translation forms `phys_addr e = ppn e << 12`,
and `set ppn flags` stores `(ppn << 10) | flags`, which for in-range
arguments is `ppn * 2^10 + flags` and round-trips. -/
theorem C7_entry_layout (e p fl : Nat) (hp : p < 2 ^ 44) (hf : fl < 2 ^ 10) :
    PageTableEntry.flags e = e &&& 0xFF ∧
    PageTableEntry.flags e = e % 256 ∧
    PageTableEntry.ppn e = (e >>> 10) &&& 0xFFFFFFFFFFF ∧
    PageTableEntry.ppn e = e / 2 ^ 10 % 2 ^ 44 ∧
    PageTableEntry.phys_addr e = PageTableEntry.ppn e <<< 12 ∧
    PageTableEntry.phys_addr e = PageTableEntry.ppn e * 2 ^ 12 ∧
    PageTableEntry.set p fl = ((p <<< 10) ||| fl) % 2 ^ 64 ∧
    PageTableEntry.set p fl = p * 2 ^ 10 + fl ∧
    PageTableEntry.set p fl < 2 ^ 64 ∧
    PageTableEntry.ppn (PageTableEntry.set p fl) = p ∧
    PageTableEntry.flags (PageTableEntry.set p fl) = fl % 256 := by
  refine ⟨rfl, PageTableEntry.flags_eq e, rfl, PageTableEntry.ppn_eq e, rfl, ?_, rfl, ?_, ?_, ?_, ?_⟩
  · rw [PageTableEntry.phys_addr_eq, PageTableEntry.ppn_eq]; norm_num
  · rw [PageTableEntry.set_eq hp hf]; norm_num
  · rw [PageTableEntry.set_eq hp hf]
    have : p * 1024 < 2 ^ 44 * 1024 :=
      Nat.mul_lt_mul_of_lt_of_le hp (Nat.le_refl _) (by norm_num)
    omega
  · rw [PageTableEntry.ppn_eq, PageTableEntry.set_eq hp hf]
    have h1 : (p * 1024 + fl) / 2 ^ 10 = p := by omega
    rw [h1, Nat.mod_eq_of_lt hp]
  · exact PageTableEntry.flags_set hp hf

/-- C7 witness. -/
theorem C7_entry_layout_witness :
    PageTableEntry.flags 0x81ABC7 = 0xC7 ∧ PageTableEntry.ppn (PageTableEntry.set 5 7) = 5 := by
  have h := C7_entry_layout 0x81ABC7 5 7 (by norm_num) (by norm_num)
  exact ⟨by rw [h.2.1], h.2.2.2.2.2.2.2.2.2.1⟩

/-- C10: the module-level `memory::translate_addr` (distinct from
`memory::paging::translate_addr`) returns `Some(vaddr)` — the identity — for
every input, never returns `None`, and its result does not depend on the
`satp` root in any way (it never consults the page tables). -/
theorem C10_translate_addr_identity_stub (satp_ppn satp_ppn' vaddr : Nat) :
    translate_addr satp_ppn vaddr = some vaddr ∧
    translate_addr satp_ppn vaddr ≠ none ∧
    translate_addr satp_ppn vaddr = translate_addr satp_ppn' vaddr :=
  ⟨rfl, by simp [translate_addr], rfl⟩

theorem walk_eq_walk_spec (mem : Memory) (root v : Nat) :
    walk_page_table mem root v = walk_page_table_spec mem root v := by
  have hiff : ∀ e : Nat, (e / 2 % 8 ≠ 0) = (e / 2 % 2 = 1 ∨ e / 4 % 2 = 1 ∨ e / 8 % 2 = 1) := by
    intro e
    apply propext
    omega
  unfold walk_page_table walk_page_table_spec
  simp only [vpn2_eq, vpn1_eq, vpn0_eq, low30_eq, low21_eq, page_offset_eq,
    PageTableEntry.phys_addr_eq, PageTableEntry.is_valid_false_iff,
    PageTableEntry.is_leaf_iff, hiff]

/-- C2: `walk_page_table` performs the three-level walk exactly as the
specification describes it, for every memory, root table and virtual
address (superpage short-circuiting at levels 2 and 1 included). -/
theorem C2_walk_matches_spec (mem : Memory) (root v : Nat) :
    walk_page_table mem root v = walk_page_table_spec mem root v :=
  walk_eq_walk_spec mem root v

/-- C3: the frame allocator.  `new` puts the cursor on the first page
boundary at or after `kernel_end` and the exclusive bound on `memory_end`
rounded down to a page boundary; the `n`-th successful `allocate` returns
the page-aligned frame at the cursor and advances it one page, so no frame
repeats; with exactly `k` frames in range the first `k` calls succeed and
the `(k+1)`-th returns `none`. -/
theorem C3_frame_allocator (ke me : Nat) (a : SimpleFrameAllocator) (k : Nat)
    (hke : ke + 4095 < 2 ^ 64) (hme : me < 2 ^ 64)
    (ha : a = SimpleFrameAllocator.new ke me)
    (hk : k = a.end_frame - a.next_frame) :
    (ke ≤ a.next_frame * 4096 ∧ a.next_frame * 4096 < ke + 4096) ∧
    (a.end_frame * 4096 ≤ me ∧ me < a.end_frame * 4096 + 4096) ∧
    (∀ n, n < k → nth_allocation a n = some ((a.next_frame + n) * 4096)) ∧
    (∀ m n, m < k → n < k → m ≠ n →
      nth_allocation a m ≠ nth_allocation a n) ∧
    nth_allocation a k = none := by
  have hnext : a.next_frame = (ke + 4095) / 4096 := by
    rw [ha]
    simp only [SimpleFrameAllocator.new, PAGE_SIZE, USIZE_CARD]
    rw [Nat.mod_eq_of_lt (by omega)]
    omega
  have hend : a.end_frame = me / 4096 := by rw [ha]; rfl
  have hsucc : ∀ n, n < k → nth_allocation a n = some ((a.next_frame + n) * 4096) := by
    intro n hn
    unfold nth_allocation
    rw [allocate_n_le (by omega)]
    have hlt : ¬ (a.next_frame + n ≥ a.end_frame) := by omega
    simp only [SimpleFrameAllocator.allocate, hlt, if_neg, ge_iff_le, Option.map_some]
    have hb : a.next_frame + n < 2 ^ 52 := by
      have : a.end_frame ≤ 2 ^ 52 := by rw [hend]; omega
      omega
    simp [PAGE_SIZE, frame_containing_aligned hb]
  refine ⟨⟨by omega, by omega⟩, ⟨by omega, by omega⟩, hsucc, ?_, ?_⟩
  · intro m n hm hn hmn
    rw [hsucc m hm, hsucc n hn]
    simp only [ne_eq, Option.some.injEq]
    intro hcontra
    have : a.next_frame + m = a.next_frame + n := by
      by_cases h : a.next_frame + m < a.next_frame + n
      · nlinarith [hcontra]
      · by_cases h' : a.next_frame + n < a.next_frame + m
        · nlinarith [hcontra]
        · omega
    omega
  · unfold nth_allocation
    rw [allocate_n_le (by omega)]
    have hge : a.next_frame + k ≥ a.end_frame := by omega
    simp [SimpleFrameAllocator.allocate, hge]

/-- C3 witness: a 4-frame range starting just above an unaligned kernel end. -/
theorem C3_frame_allocator_witness :
    nth_allocation (SimpleFrameAllocator.new 0x80001234 0x80006000) 0 = some 0x80002000 ∧
    nth_allocation (SimpleFrameAllocator.new 0x80001234 0x80006000) 4 = none := by
  have h := C3_frame_allocator 0x80001234 0x80006000
    (SimpleFrameAllocator.new 0x80001234 0x80006000) 4
    (by norm_num) (by norm_num) rfl (by decide)
  refine ⟨?_, h.2.2.2.2⟩
  have h0 := h.2.2.1 0 (by norm_num)
  rw [h0]
  norm_num
  decide

/-- C4: mapping a virtual address whose level-0 entry is already valid fails
with the already-mapped error, leaves memory and allocator untouched, and a
subsequent walk still returns the original physical address. -/
theorem C4_already_mapped (mem : Memory) (root v p fl : Nat)
    (alloc : SimpleFrameAllocator)
    (h2 : PageTableEntry.is_valid (mem root (vpn2 v)) = true)
    (h1 : PageTableEntry.is_valid
      (mem (PageTableEntry.phys_addr (mem root (vpn2 v))) (vpn1 v)) = true)
    (h0 : PageTableEntry.is_valid
      (mem (PageTableEntry.phys_addr
        (mem (PageTableEntry.phys_addr (mem root (vpn2 v))) (vpn1 v))) (vpn0 v)) = true) :
    map_page mem root v p fl alloc = (.error "Page already mapped", mem, alloc) ∧
    walk_page_table (map_page mem root v p fl alloc).2.1 root v =
      walk_page_table mem root v := by
  have hmap : map_page mem root v p fl alloc = (.error "Page already mapped", mem, alloc) := by
    unfold map_page map_page_l1 map_page_l0
    simp only [h2, h1, h0, if_true]
  exact ⟨hmap, by rw [hmap]⟩

/-- C4 witness: a concrete three-level chain with a leaf already installed. -/
theorem C4_already_mapped_witness :
    map_page
      (fun t i =>
        if t = 0 ∧ i = 0 then PageTableEntry.set 1 1
        else if t = 4096 ∧ i = 0 then PageTableEntry.set 2 1
        else if t = 8192 ∧ i = 0 then PageTableEntry.set 3 7
        else 0)
      0 0 0x5000 6 ⟨16, 32⟩ =
      (.error "Page already mapped",
       (fun t i =>
        if t = 0 ∧ i = 0 then PageTableEntry.set 1 1
        else if t = 4096 ∧ i = 0 then PageTableEntry.set 2 1
        else if t = 8192 ∧ i = 0 then PageTableEntry.set 3 7
        else 0), ⟨16, 32⟩) ∧
    walk_page_table
      (map_page
        (fun t i =>
          if t = 0 ∧ i = 0 then PageTableEntry.set 1 1
          else if t = 4096 ∧ i = 0 then PageTableEntry.set 2 1
          else if t = 8192 ∧ i = 0 then PageTableEntry.set 3 7
          else 0)
        0 0 0x5000 6 ⟨16, 32⟩).2.1 0 0 =
      walk_page_table
        (fun t i =>
          if t = 0 ∧ i = 0 then PageTableEntry.set 1 1
          else if t = 4096 ∧ i = 0 then PageTableEntry.set 2 1
          else if t = 8192 ∧ i = 0 then PageTableEntry.set 3 7
          else 0) 0 0 :=
  C4_already_mapped _ 0 0 0x5000 6 ⟨16, 32⟩ (by decide) (by decide) (by decide)

/-- C5: `unmap_page` of an address whose walk meets an invalid entry fails
with the not-mapped error and changes nothing, and the address still walks
to unmapped afterwards; a successful `unmap_page` returns the physical
address held by the level-0 leaf and zeroes exactly that entry. -/
theorem C5_unmap_page (mem : Memory) (root v : Nat) :
    (walk_hits_invalid mem root v →
      unmap_page mem root v = (.error "Page not mapped", mem) ∧
      walk_page_table mem root v = none ∧
      walk_page_table (unmap_page mem root v).2 root v = none) ∧
    (PageTableEntry.is_valid (mem root (vpn2 v)) = true →
     PageTableEntry.is_valid
       (mem (PageTableEntry.phys_addr (mem root (vpn2 v))) (vpn1 v)) = true →
     PageTableEntry.is_valid
       (mem (PageTableEntry.phys_addr
         (mem (PageTableEntry.phys_addr (mem root (vpn2 v))) (vpn1 v))) (vpn0 v)) = true →
      unmap_page mem root v =
        (.ok (PageTableEntry.phys_addr
          (mem (PageTableEntry.phys_addr
            (mem (PageTableEntry.phys_addr (mem root (vpn2 v))) (vpn1 v))) (vpn0 v))),
         update_entry mem
           (PageTableEntry.phys_addr
             (mem (PageTableEntry.phys_addr (mem root (vpn2 v))) (vpn1 v)))
           (vpn0 v) 0)) := by
  constructor
  · intro hinv
    have herr : unmap_page mem root v = (.error "Page not mapped", mem) := by
      unfold unmap_page
      rcases hinv with hv2 | ⟨hl2, hv1⟩ | ⟨hl2, hl1, hv0⟩
      · simp only [hv2, if_true]
      · cases hv2 : PageTableEntry.is_valid (mem root (vpn2 v)) with
        | false => simp only [hv2, if_true]
        | true => simp only [hv2, hv1, if_true, Bool.true_eq_false, if_false]
      · cases hv2 : PageTableEntry.is_valid (mem root (vpn2 v)) with
        | false => simp only [hv2, if_true]
        | true =>
          cases hv1 : PageTableEntry.is_valid
              (mem (PageTableEntry.phys_addr (mem root (vpn2 v))) (vpn1 v)) with
          | false => simp only [hv2, hv1, if_true, Bool.true_eq_false, if_false]
          | true => simp only [hv2, hv1, hv0, if_true, Bool.true_eq_false, if_false]
    have hwalk : walk_page_table mem root v = none := by
      unfold walk_page_table
      rcases hinv with hv2 | ⟨hl2, hv1⟩ | ⟨hl2, hl1, hv0⟩
      · simp only [hv2, if_true]
      · cases hv2 : PageTableEntry.is_valid (mem root (vpn2 v)) with
        | false => simp only [hv2, if_true]
        | true => simp only [hv2, hl2, hv1, if_true, Bool.true_eq_false, Bool.false_eq_true,
            if_false]
      · cases hv2 : PageTableEntry.is_valid (mem root (vpn2 v)) with
        | false => simp only [hv2, if_true]
        | true =>
          cases hv1 : PageTableEntry.is_valid
              (mem (PageTableEntry.phys_addr (mem root (vpn2 v))) (vpn1 v)) with
          | false => simp only [hv2, hl2, hv1, if_true, Bool.true_eq_false, Bool.false_eq_true,
              if_false]
          | true => simp only [hv2, hl2, hv1, hl1, hv0, if_true, Bool.true_eq_false,
              Bool.false_eq_true, if_false]
    exact ⟨herr, hwalk, by rw [herr]; exact hwalk⟩
  · intro hv2 hv1 hv0
    unfold unmap_page
    simp only [hv2, hv1, hv0, Bool.true_eq_false, if_false]

/-- C5 witness: the error arm at a wholly-unmapped address (zero tables) and
the success arm on a concrete three-level chain. -/
theorem C5_unmap_page_witness :
    (unmap_page (fun _ _ => 0) 0 0 = (.error "Page not mapped", fun _ _ => 0) ∧
      walk_page_table (fun _ _ => 0) 0 0 = none) ∧
    unmap_page
      (fun t i =>
        if t = 0 ∧ i = 0 then PageTableEntry.set 1 1
        else if t = 4096 ∧ i = 0 then PageTableEntry.set 2 1
        else if t = 8192 ∧ i = 0 then PageTableEntry.set 3 7
        else 0) 0 0 =
      (.ok 12288,
       update_entry
        (fun t i =>
          if t = 0 ∧ i = 0 then PageTableEntry.set 1 1
          else if t = 4096 ∧ i = 0 then PageTableEntry.set 2 1
          else if t = 8192 ∧ i = 0 then PageTableEntry.set 3 7
          else 0) 8192 0 0) := by
  have ha := (C5_unmap_page (fun _ _ => 0) 0 0).1 (Or.inl (by decide))
  have hb := (C5_unmap_page
    (fun t i =>
      if t = 0 ∧ i = 0 then PageTableEntry.set 1 1
      else if t = 4096 ∧ i = 0 then PageTableEntry.set 2 1
      else if t = 8192 ∧ i = 0 then PageTableEntry.set 3 7
      else 0) 0 0).2 (by decide) (by decide) (by decide)
  refine ⟨⟨ha.1, ha.2.1⟩, ?_⟩
  rw [hb]
  rfl

/-- C6 counterexample: mapping `0 ↦ 0x1000` with flags `R|W = 6` writes the
raw level-0 entry `(0x1000 >> 12) << 10 | 6 | 1 = 1031`, not
`(0x1000 >> 12) << 12 | 6 | 1 = 4103` as the claim reads. -/
theorem C6_counterexample :
    (map_page (fun _ _ => 0) 0 0 0x1000 6 ⟨1, 100⟩).1 = .ok () ∧
    (map_page (fun _ _ => 0) 0 0 0x1000 6 ⟨1, 100⟩).2.1 8192 (vpn0 0) = 1031 ∧
    ((0x1000 >>> 12) <<< 12 ||| 6 ||| FLAG_VALID) = 4103 ∧
    (1031 : Nat) ≠ 4103 :=
  ⟨rfl, rfl, rfl, by decide⟩

/-- C6 (amended): the raw 8-byte entry installed at level 0 equals
`(physical page number << 10) | requested flags | validity bit` — the page
number sits at bit 10, and is only shifted to bit 12 at translation time. -/
theorem C6_leaf_entry_value (mem : Memory) (root v p fl : Nat)
    (alloc : SimpleFrameAllocator)
    (h2 : PageTableEntry.is_valid (mem root (vpn2 v)) = true)
    (h1 : PageTableEntry.is_valid
      (mem (PageTableEntry.phys_addr (mem root (vpn2 v))) (vpn1 v)) = true)
    (h0 : PageTableEntry.is_valid
      (mem (PageTableEntry.phys_addr
        (mem (PageTableEntry.phys_addr (mem root (vpn2 v))) (vpn1 v))) (vpn0 v)) = false) :
    map_page mem root v p fl alloc =
      (.ok (),
       update_entry mem
         (PageTableEntry.phys_addr
           (mem (PageTableEntry.phys_addr (mem root (vpn2 v))) (vpn1 v)))
         (vpn0 v)
         (PageTableEntry.set (p >>> 12) (fl ||| FLAG_VALID)),
       alloc) ∧
    PageTableEntry.set (p >>> 12) (fl ||| FLAG_VALID) =
      (((p >>> 12) <<< 10) ||| (fl ||| FLAG_VALID)) % 2 ^ 64 := by
  exact ⟨map_page_install_l0 mem root v p fl alloc h2 h1 h0, rfl⟩

/-- C6 witness for the amended claim: concrete valid branches at levels 2
and 1, empty level-0 slot. -/
theorem C6_leaf_entry_value_witness :
    (map_page
      (fun t i =>
        if t = 0 ∧ i = 0 then PageTableEntry.set 1 1
        else if t = 4096 ∧ i = 0 then PageTableEntry.set 2 1
        else 0) 0 0 0x5000 6 ⟨16, 32⟩).1 = .ok () ∧
    (map_page
      (fun t i =>
        if t = 0 ∧ i = 0 then PageTableEntry.set 1 1
        else if t = 4096 ∧ i = 0 then PageTableEntry.set 2 1
        else 0) 0 0 0x5000 6 ⟨16, 32⟩).2.1 8192 0 = 0x1407 := by
  have h := C6_leaf_entry_value
    (fun t i =>
      if t = 0 ∧ i = 0 then PageTableEntry.set 1 1
      else if t = 4096 ∧ i = 0 then PageTableEntry.set 2 1
      else 0) 0 0 0x5000 6 ⟨16, 32⟩ (by decide) (by decide) (by decide)
  rw [h.1]
  exact ⟨rfl, by decide⟩

/-- C1 (amended): for page-aligned 39-bit `v`, page-aligned `p` that fits
the 44-bit PPN field (`p < 2^56`), flags confined to bits 0-7, a zeroed root
table and two fresh non-aliasing frames available, `map_page` succeeds and
every offset in `[0, 4096)` then walks to `p + offset`. -/
theorem C1_map_then_translate (mem : Memory) (root v p fl next endf : Nat)
    (hroot : ∀ i, mem root i = 0)
    (hv : v % 4096 = 0) (_hv39 : v < 2 ^ 39)
    (hp : p % 4096 = 0) (hp56 : p < 2 ^ 56) (hfl : fl < 256)
    (hfr : next + 2 ≤ endf) (hend : endf ≤ 2 ^ 44)
    (hne1 : root ≠ next * 4096) (hne2 : root ≠ (next + 1) * 4096) :
    ∀ res M alloc', map_page mem root v p fl ⟨next, endf⟩ = (res, M, alloc') →
      res = .ok () ∧
      ∀ off, off < 4096 → walk_page_table M root (v + off) = some (p + off) := by
  intro res M alloc' heq
  rw [map_page_from_zeroed mem root v p fl next endf hroot hfr hend,
    Prod.mk.injEq, Prod.mk.injEq] at heq
  obtain ⟨hres, hM, halloc⟩ := heq
  subst hM
  refine ⟨hres.symm, ?_⟩
  intro off hoff
  have hne3 : next * 4096 ≠ (next + 1) * 4096 := by omega
  have hb44 : next < 2 ^ 44 := by omega
  have hb44' : next + 1 < 2 ^ 44 := by omega
  have hp44 : p >>> 12 < 2 ^ 44 := by
    rw [Nat.shiftRight_eq_div_pow]; omega
  have hw2 : vpn2 (v + off) = vpn2 v := by rw [vpn2_eq, vpn2_eq]; omega
  have hw1 : vpn1 (v + off) = vpn1 v := by rw [vpn1_eq, vpn1_eq]; omega
  have hw0 : vpn0 (v + off) = vpn0 v := by rw [vpn0_eq, vpn0_eq]; omega
  have hpa2 : PageTableEntry.phys_addr (PageTableEntry.set next FLAG_VALID) =
      next * 4096 := PageTableEntry.phys_addr_set hb44 (by decide)
  have hpa1 : PageTableEntry.phys_addr (PageTableEntry.set (next + 1) FLAG_VALID) =
      (next + 1) * 4096 := PageTableEntry.phys_addr_set hb44' (by decide)
  have r2 : (update_entry
        (zero_table
          (update_entry
            (zero_table
              (update_entry mem root (vpn2 v) (PageTableEntry.set next FLAG_VALID))
              (next * 4096))
            (next * 4096) (vpn1 v) (PageTableEntry.set (next + 1) FLAG_VALID))
          ((next + 1) * 4096))
        ((next + 1) * 4096) (vpn0 v)
        (PageTableEntry.set (p >>> 12) (fl ||| FLAG_VALID)))
      root (vpn2 (v + off)) = PageTableEntry.set next FLAG_VALID := by
    rw [hw2]
    simp [update_entry, zero_table, hne1, hne2]
  have r1 : (update_entry
        (zero_table
          (update_entry
            (zero_table
              (update_entry mem root (vpn2 v) (PageTableEntry.set next FLAG_VALID))
              (next * 4096))
            (next * 4096) (vpn1 v) (PageTableEntry.set (next + 1) FLAG_VALID))
          ((next + 1) * 4096))
        ((next + 1) * 4096) (vpn0 v)
        (PageTableEntry.set (p >>> 12) (fl ||| FLAG_VALID)))
      (PageTableEntry.phys_addr (PageTableEntry.set next FLAG_VALID))
      (vpn1 (v + off)) = PageTableEntry.set (next + 1) FLAG_VALID := by
    rw [hw1, hpa2]
    simp [update_entry, zero_table, hne3]
  have r0 : (update_entry
        (zero_table
          (update_entry
            (zero_table
              (update_entry mem root (vpn2 v) (PageTableEntry.set next FLAG_VALID))
              (next * 4096))
            (next * 4096) (vpn1 v) (PageTableEntry.set (next + 1) FLAG_VALID))
          ((next + 1) * 4096))
        ((next + 1) * 4096) (vpn0 v)
        (PageTableEntry.set (p >>> 12) (fl ||| FLAG_VALID)))
      (PageTableEntry.phys_addr (PageTableEntry.set (next + 1) FLAG_VALID))
      (vpn0 (v + off)) = PageTableEntry.set (p >>> 12) (fl ||| FLAG_VALID) := by
    rw [hw0, hpa1]
    simp [update_entry]
  rw [walk_via r2
    (PageTableEntry.is_valid_set hb44 (by decide) (by decide))
    (PageTableEntry.is_leaf_set_valid_only hb44)
    r1
    (PageTableEntry.is_valid_set hb44' (by decide) (by decide))
    (PageTableEntry.is_leaf_set_valid_only hb44')
    r0
    (PageTableEntry.is_valid_set hp44 (or_valid_lt (by omega)) (or_valid_odd fl))]
  have hpa0 : PageTableEntry.phys_addr
      (PageTableEntry.set (p >>> 12) (fl ||| FLAG_VALID)) = p := by
    rw [PageTableEntry.phys_addr_set hp44 (or_valid_lt (by omega)),
      Nat.shiftRight_eq_div_pow]
    omega
  rw [hpa0]
  congr 1
  omega

/-- C1 counterexample: every hypothesis of the claim is satisfied with the
page-aligned physical address `p = 2^56` (zeroed root at `0x80000000`, fresh
non-aliasing frames from `0x82000000`, flags `R|W`), yet after a successful
map the walk returns `0`, not `p`: `p`'s page number overflows the 44-bit
PPN field of an entry. -/
theorem C1_counterexample :
    (map_page (fun _ _ => 0) 0x80000000 0 (2 ^ 56) 6 ⟨0x82000, 0x88000⟩).1 = .ok () ∧
    walk_page_table
      (map_page (fun _ _ => 0) 0x80000000 0 (2 ^ 56) 6 ⟨0x82000, 0x88000⟩).2.1
      0x80000000 (0 + 0) = some 0 ∧
    some (0 : Nat) ≠ some (2 ^ 56 + 0) :=
  ⟨rfl, rfl, by decide⟩

/-- C1 witness: the spec's concrete scenario
`map(0x10000000 ↦ 0x81000000, R|W)` then translate at offsets `0` and
`0xFFF`, plus the next page still unmapped. -/
theorem C1_map_then_translate_witness :
    (map_page (fun _ _ => 0) 0x80000000 0x10000000 0x81000000 6
      ⟨0x82000, 0x88000⟩).1 = .ok () ∧
    walk_page_table
      (map_page (fun _ _ => 0) 0x80000000 0x10000000 0x81000000 6
        ⟨0x82000, 0x88000⟩).2.1 0x80000000 (0x10000000 + 0) = some (0x81000000 + 0) ∧
    walk_page_table
      (map_page (fun _ _ => 0) 0x80000000 0x10000000 0x81000000 6
        ⟨0x82000, 0x88000⟩).2.1 0x80000000 (0x10000000 + 0xFFF) = some (0x81000000 + 0xFFF) ∧
    walk_page_table
      (map_page (fun _ _ => 0) 0x80000000 0x10000000 0x81000000 6
        ⟨0x82000, 0x88000⟩).2.1 0x80000000 0x10001000 = none := by
  have h := C1_map_then_translate (fun _ _ => 0) 0x80000000 0x10000000 0x81000000 6
    0x82000 0x88000 (fun _ => rfl) (by norm_num) (by norm_num) (by norm_num)
    (by norm_num) (by norm_num) (by norm_num) (by norm_num) (by norm_num) (by norm_num)
    (map_page (fun _ _ => 0) 0x80000000 0x10000000 0x81000000 6 ⟨0x82000, 0x88000⟩).1
    (map_page (fun _ _ => 0) 0x80000000 0x10000000 0x81000000 6 ⟨0x82000, 0x88000⟩).2.1
    (map_page (fun _ _ => 0) 0x80000000 0x10000000 0x81000000 6 ⟨0x82000, 0x88000⟩).2.2
    rfl
  exact ⟨h.1, h.2 0 (by norm_num), h.2 0xFFF (by norm_num), by decide⟩

/-- C9: from a zeroed root, mapping `v1 ↦ p1` installs branch entries that
carry the validity bit only (`flags = 1`, no R/W/X); mapping a sibling
`v2 ↦ p2` that shares the level-2 and level-1 indices but differs at level 0
then succeeds by descending the already-installed tables unchanged —
drawing no frame from the allocator and leaving the shared branch entry
intact — and afterwards each address translates to its own physical
address. -/
theorem C9_sibling_mappings (mem : Memory) (root v1 v2 p1 p2 fl1 fl2 next endf : Nat)
    (hroot : ∀ i, mem root i = 0)
    (h2eq : vpn2 v2 = vpn2 v1) (h1eq : vpn1 v2 = vpn1 v1) (h0ne : vpn0 v2 ≠ vpn0 v1)
    (hv1 : v1 % 4096 = 0) (hv2 : v2 % 4096 = 0)
    (hp1 : p1 % 4096 = 0) (hp156 : p1 < 2 ^ 56)
    (hp2 : p2 % 4096 = 0) (hp256 : p2 < 2 ^ 56)
    (hfl1 : fl1 < 256) (hfl2 : fl2 < 256)
    (hfr : next + 2 ≤ endf) (hend : endf ≤ 2 ^ 44)
    (hne1 : root ≠ next * 4096) (hne2 : root ≠ (next + 1) * 4096) :
    ∀ res1 M1 alloc1, map_page mem root v1 p1 fl1 ⟨next, endf⟩ = (res1, M1, alloc1) →
    ∀ res2 M2 alloc2, map_page M1 root v2 p2 fl2 alloc1 = (res2, M2, alloc2) →
      res1 = .ok () ∧
      PageTableEntry.flags (M1 root (vpn2 v1)) = FLAG_VALID ∧
      res2 = .ok () ∧
      alloc2 = alloc1 ∧
      M2 root (vpn2 v1) = M1 root (vpn2 v1) ∧
      walk_page_table M2 root v1 = some p1 ∧
      walk_page_table M2 root v2 = some p2 := by
  intro res1 M1 alloc1 heq1 res2 M2 alloc2 heq2
  have hne3 : next * 4096 ≠ (next + 1) * 4096 := by omega
  have h0ne' : vpn0 v1 ≠ vpn0 v2 := Ne.symm h0ne
  have hb44 : next < 2 ^ 44 := by omega
  have hb44' : next + 1 < 2 ^ 44 := by omega
  have hp144 : p1 >>> 12 < 2 ^ 44 := by rw [Nat.shiftRight_eq_div_pow]; omega
  have hp244 : p2 >>> 12 < 2 ^ 44 := by rw [Nat.shiftRight_eq_div_pow]; omega
  have hpa2 : PageTableEntry.phys_addr (PageTableEntry.set next FLAG_VALID) =
      next * 4096 := PageTableEntry.phys_addr_set hb44 (by decide)
  have hpa1 : PageTableEntry.phys_addr (PageTableEntry.set (next + 1) FLAG_VALID) =
      (next + 1) * 4096 := PageTableEntry.phys_addr_set hb44' (by decide)
  rw [map_page_from_zeroed mem root v1 p1 fl1 next endf hroot hfr hend,
    Prod.mk.injEq, Prod.mk.injEq] at heq1
  obtain ⟨hres1, hM1, halloc1⟩ := heq1
  rw [← halloc1] at heq2
  have m1r2 : M1 root (vpn2 v2) = PageTableEntry.set next FLAG_VALID := by
    rw [← hM1, h2eq]
    simp [update_entry, zero_table, hne1, hne2]
  have m1r2v1 : M1 root (vpn2 v1) = PageTableEntry.set next FLAG_VALID := by
    rw [← hM1]
    simp [update_entry, zero_table, hne1, hne2]
  have m1r1 : M1 (next * 4096) (vpn1 v2) = PageTableEntry.set (next + 1) FLAG_VALID := by
    rw [← hM1, h1eq]
    simp [update_entry, zero_table, hne3]
  have m1r0 : M1 ((next + 1) * 4096) (vpn0 v2) = 0 := by
    rw [← hM1]
    simp [update_entry, zero_table, h0ne]
  have m1r0v1 : M1 ((next + 1) * 4096) (vpn0 v1) =
      PageTableEntry.set (p1 >>> 12) (fl1 ||| FLAG_VALID) := by
    rw [← hM1]
    simp [update_entry]
  have h2valid : PageTableEntry.is_valid (M1 root (vpn2 v2)) = true := by
    rw [m1r2]
    exact PageTableEntry.is_valid_set hb44 (by decide) (by decide)
  have h1valid : PageTableEntry.is_valid
      (M1 (PageTableEntry.phys_addr (M1 root (vpn2 v2))) (vpn1 v2)) = true := by
    rw [m1r2, hpa2, m1r1]
    exact PageTableEntry.is_valid_set hb44' (by decide) (by decide)
  have h0invalid : PageTableEntry.is_valid
      (M1 (PageTableEntry.phys_addr
        (M1 (PageTableEntry.phys_addr (M1 root (vpn2 v2))) (vpn1 v2))) (vpn0 v2)) = false := by
    rw [m1r2, hpa2, m1r1, hpa1, m1r0]
    rfl
  have hsecond := map_page_install_l0 M1 root v2 p2 fl2 ⟨next + 2, endf⟩
    h2valid h1valid h0invalid
  rw [m1r2, hpa2, m1r1, hpa1] at hsecond
  rw [hsecond, Prod.mk.injEq, Prod.mk.injEq] at heq2
  obtain ⟨hres2, hM2, halloc2⟩ := heq2
  have m2root : M2 root (vpn2 v1) = M1 root (vpn2 v1) := by
    rw [← hM2]
    exact update_entry_miss M1 _ (Or.inl hne2)
  have hflags : PageTableEntry.flags (M1 root (vpn2 v1)) = FLAG_VALID := by
    rw [m1r2v1, PageTableEntry.flags_set hb44 (by decide)]
    decide
  refine ⟨hres1.symm, hflags, hres2.symm, halloc2.symm.trans halloc1, m2root, ?_, ?_⟩
  · have r2 : M2 root (vpn2 v1) = PageTableEntry.set next FLAG_VALID := by
      rw [m2root, m1r2v1]
    have r1 : M2 (PageTableEntry.phys_addr (PageTableEntry.set next FLAG_VALID))
        (vpn1 v1) = PageTableEntry.set (next + 1) FLAG_VALID := by
      rw [hpa2, ← hM2, update_entry_miss M1 _ (Or.inl hne3), ← h1eq, m1r1]
    have r0 : M2 (PageTableEntry.phys_addr (PageTableEntry.set (next + 1) FLAG_VALID))
        (vpn0 v1) = PageTableEntry.set (p1 >>> 12) (fl1 ||| FLAG_VALID) := by
      rw [hpa1, ← hM2, update_entry_miss M1 _ (Or.inr h0ne'), m1r0v1]
    rw [walk_via r2
      (PageTableEntry.is_valid_set hb44 (by decide) (by decide))
      (PageTableEntry.is_leaf_set_valid_only hb44)
      r1
      (PageTableEntry.is_valid_set hb44' (by decide) (by decide))
      (PageTableEntry.is_leaf_set_valid_only hb44')
      r0
      (PageTableEntry.is_valid_set hp144 (or_valid_lt (by omega)) (or_valid_odd fl1))]
    rw [PageTableEntry.phys_addr_set hp144 (or_valid_lt (by omega)),
      Nat.shiftRight_eq_div_pow]
    congr 1
    omega
  · have r2 : M2 root (vpn2 v2) = PageTableEntry.set next FLAG_VALID := by
      rw [← hM2, update_entry_miss M1 _ (Or.inl hne2), m1r2]
    have r1 : M2 (PageTableEntry.phys_addr (PageTableEntry.set next FLAG_VALID))
        (vpn1 v2) = PageTableEntry.set (next + 1) FLAG_VALID := by
      rw [hpa2, ← hM2, update_entry_miss M1 _ (Or.inl hne3), m1r1]
    have r0 : M2 (PageTableEntry.phys_addr (PageTableEntry.set (next + 1) FLAG_VALID))
        (vpn0 v2) = PageTableEntry.set (p2 >>> 12) (fl2 ||| FLAG_VALID) := by
      rw [hpa1, ← hM2]
      exact update_entry_hit M1 _ _ _
    rw [walk_via r2
      (PageTableEntry.is_valid_set hb44 (by decide) (by decide))
      (PageTableEntry.is_leaf_set_valid_only hb44)
      r1
      (PageTableEntry.is_valid_set hb44' (by decide) (by decide))
      (PageTableEntry.is_leaf_set_valid_only hb44')
      r0
      (PageTableEntry.is_valid_set hp244 (or_valid_lt (by omega)) (or_valid_odd fl2))]
    rw [PageTableEntry.phys_addr_set hp244 (or_valid_lt (by omega)),
      Nat.shiftRight_eq_div_pow]
    congr 1
    omega

/-- C9 witness: `0x10000000` and `0x10001000` share VPN2/VPN1 and differ in
VPN0; both map and translate from the same allocator run. -/
theorem C9_sibling_mappings_witness :
    walk_page_table
      (map_page
        (map_page (fun _ _ => 0) 0x80000000 0x10000000 0x81000000 6
          ⟨0x82000, 0x88000⟩).2.1
        0x80000000 0x10001000 0x81005000 6
        (map_page (fun _ _ => 0) 0x80000000 0x10000000 0x81000000 6
          ⟨0x82000, 0x88000⟩).2.2).2.1
      0x80000000 0x10000000 = some 0x81000000 ∧
    walk_page_table
      (map_page
        (map_page (fun _ _ => 0) 0x80000000 0x10000000 0x81000000 6
          ⟨0x82000, 0x88000⟩).2.1
        0x80000000 0x10001000 0x81005000 6
        (map_page (fun _ _ => 0) 0x80000000 0x10000000 0x81000000 6
          ⟨0x82000, 0x88000⟩).2.2).2.1
      0x80000000 0x10001000 = some 0x81005000 := by
  have h := C9_sibling_mappings (fun _ _ => 0) 0x80000000 0x10000000 0x10001000
    0x81000000 0x81005000 6 6 0x82000 0x88000
    (fun _ => rfl) (by decide) (by decide) (by decide)
    (by norm_num) (by norm_num) (by norm_num) (by norm_num) (by norm_num) (by norm_num)
    (by norm_num) (by norm_num) (by norm_num) (by norm_num) (by norm_num) (by norm_num)
    _ _ _ rfl _ _ _ rfl
  exact ⟨h.2.2.2.2.2.1, h.2.2.2.2.2.2⟩

/-! ### Infrastructure for region mapping (claim C8) -/

theorem flags_one_not_leaf {e : Nat}
    (h : PageTableEntry.flags e = FLAG_VALID) : PageTableEntry.is_leaf e = false := by
  rw [PageTableEntry.flags_eq] at h
  rw [PageTableEntry.is_leaf_false_iff]
  unfold FLAG_VALID at h
  omega

theorem flags_one_valid {e : Nat}
    (h : PageTableEntry.flags e = FLAG_VALID) : PageTableEntry.is_valid e = true := by
  rw [PageTableEntry.flags_eq] at h
  rw [PageTableEntry.is_valid_iff]
  unfold FLAG_VALID at h
  omega

theorem phys_addr_lt (e : Nat) : PageTableEntry.phys_addr e < 2 ^ 56 := by
  rw [PageTableEntry.phys_addr_eq]
  have : e / 2 ^ 10 % 2 ^ 44 < 2 ^ 44 := Nat.mod_lt _ (by norm_num)
  omega

theorem phys_addr_aligned (e : Nat) : PageTableEntry.phys_addr e % 4096 = 0 := by
  rw [PageTableEntry.phys_addr_eq]
  omega

theorem PTInv_of_zeroed (mem : Memory) (root next : Nat)
    (hroot : ∀ i, mem root i = 0) (h : root < next * 4096) : PTInv mem root next := by
  refine ⟨h, ?_, ?_, ?_, ?_, ?_⟩ <;> intro i
  · intro _ hv
    rw [hroot i] at hv
    exact absurd hv (by decide)
  · intro _ hv
    rw [hroot i] at hv
    exact absurd hv (by decide)
  · intro i' _ _ hv
    rw [hroot i] at hv
    exact absurd hv (by decide)
  · intro i' j' _ _ _ _ hv'
    rw [hroot i'] at hv'
    exact absurd hv' (by decide)
  · intro j i' j' _ _ _ _ hv
    rw [hroot i] at hv
    exact absurd hv (by decide)

theorem walk_none_l2 {M : Memory} {root w : Nat}
    (h : PageTableEntry.is_valid (M root (vpn2 w)) = false) :
    walk_page_table M root w = none := by
  unfold walk_page_table
  simp only [h, if_true]

theorem walk_none_l1 {M : Memory} {root w : Nat}
    (hv2 : PageTableEntry.is_valid (M root (vpn2 w)) = true)
    (hl2 : PageTableEntry.is_leaf (M root (vpn2 w)) = false)
    (h : PageTableEntry.is_valid
      (M (PageTableEntry.phys_addr (M root (vpn2 w))) (vpn1 w)) = false) :
    walk_page_table M root w = none := by
  unfold walk_page_table
  simp only [hv2, hl2, h, Bool.true_eq_false, Bool.false_eq_true, if_false, if_true]

theorem walk_none_l0 {M : Memory} {root w : Nat}
    (hv2 : PageTableEntry.is_valid (M root (vpn2 w)) = true)
    (hl2 : PageTableEntry.is_leaf (M root (vpn2 w)) = false)
    (hv1 : PageTableEntry.is_valid
      (M (PageTableEntry.phys_addr (M root (vpn2 w))) (vpn1 w)) = true)
    (hl1 : PageTableEntry.is_leaf
      (M (PageTableEntry.phys_addr (M root (vpn2 w))) (vpn1 w)) = false)
    (h : PageTableEntry.is_valid
      (M (PageTableEntry.phys_addr
        (M (PageTableEntry.phys_addr (M root (vpn2 w))) (vpn1 w))) (vpn0 w)) = false) :
    walk_page_table M root w = none := by
  unfold walk_page_table
  simp only [hv2, hl2, hv1, hl1, h, Bool.true_eq_false, Bool.false_eq_true, if_false, if_true]

/-- Two memories walk a virtual address identically when they agree on the
entries actually read along the path (as computed in `M`). -/
theorem walk_congr {M M' : Memory} {root w : Nat}
    (h2 : M' root (vpn2 w) = M root (vpn2 w))
    (h1 : PageTableEntry.is_valid (M root (vpn2 w)) = true →
      PageTableEntry.is_leaf (M root (vpn2 w)) = false →
      M' (PageTableEntry.phys_addr (M root (vpn2 w))) (vpn1 w) =
        M (PageTableEntry.phys_addr (M root (vpn2 w))) (vpn1 w))
    (h0 : PageTableEntry.is_valid (M root (vpn2 w)) = true →
      PageTableEntry.is_leaf (M root (vpn2 w)) = false →
      PageTableEntry.is_valid
        (M (PageTableEntry.phys_addr (M root (vpn2 w))) (vpn1 w)) = true →
      PageTableEntry.is_leaf
        (M (PageTableEntry.phys_addr (M root (vpn2 w))) (vpn1 w)) = false →
      M' (PageTableEntry.phys_addr
        (M (PageTableEntry.phys_addr (M root (vpn2 w))) (vpn1 w))) (vpn0 w) =
        M (PageTableEntry.phys_addr
          (M (PageTableEntry.phys_addr (M root (vpn2 w))) (vpn1 w))) (vpn0 w)) :
    walk_page_table M' root w = walk_page_table M root w := by
  unfold walk_page_table
  rw [h2]
  cases hv2 : PageTableEntry.is_valid (M root (vpn2 w)) with
  | false => simp only [hv2, if_true]
  | true =>
    simp only [hv2, Bool.true_eq_false, if_false]
    cases hl2 : PageTableEntry.is_leaf (M root (vpn2 w)) with
    | true => simp only [hl2, if_true]
    | false =>
      simp only [hl2, Bool.false_eq_true, if_false]
      rw [h1 hv2 hl2]
      cases hv1 : PageTableEntry.is_valid
          (M (PageTableEntry.phys_addr (M root (vpn2 w))) (vpn1 w)) with
      | false => simp only [hv1, if_true]
      | true =>
        simp only [hv1, Bool.true_eq_false, if_false]
        cases hl1 : PageTableEntry.is_leaf
            (M (PageTableEntry.phys_addr (M root (vpn2 w))) (vpn1 w)) with
        | true => simp only [hl1, if_true]
        | false =>
          simp only [hl1, Bool.false_eq_true, if_false]
          rw [h0 hv2 hl2 hv1 hl1]

theorem same_path_iff {w v : Nat} (hw : w < 2 ^ 39) (hv : v < 2 ^ 39) :
    same_path w v ↔ w / 4096 = v / 4096 := by
  unfold same_path
  rw [vpn2_eq, vpn2_eq, vpn1_eq, vpn1_eq, vpn0_eq, vpn0_eq]
  omega

/-! ### Case equations for `map_page` -/

/-- `map_page` when the level-2 entry is valid but the level-1 entry is
invalid: allocates one frame as the level-0 table. -/
theorem map_page_alloc_l0 (mem : Memory) (root v p fl next endf : Nat)
    (h2 : PageTableEntry.is_valid (mem root (vpn2 v)) = true)
    (h1 : PageTableEntry.is_valid
      (mem (PageTableEntry.phys_addr (mem root (vpn2 v))) (vpn1 v)) = false)
    (hlt : next < endf) (hend : endf ≤ 2 ^ 44) :
    map_page mem root v p fl ⟨next, endf⟩ =
      (.ok (),
       update_entry
         (zero_table
           (update_entry mem (PageTableEntry.phys_addr (mem root (vpn2 v))) (vpn1 v)
             (PageTableEntry.set next FLAG_VALID))
           (next * 4096))
         (next * 4096) (vpn0 v)
         (PageTableEntry.set (p >>> 12) (fl ||| FLAG_VALID)),
       ⟨next + 1, endf⟩) := by
  have hb1 : next < 2 ^ 52 := by omega
  have halloc : SimpleFrameAllocator.allocate ⟨next, endf⟩ =
      some (next * 4096, ⟨next + 1, endf⟩) := by
    unfold SimpleFrameAllocator.allocate
    rw [if_neg (by simp only [ge_iff_le, not_le]; omega)]
    simp only [PAGE_SIZE, frame_containing_aligned hb1]
  have hs1 : (next * 4096) >>> 12 = next := by
    rw [Nat.shiftRight_eq_div_pow]; omega
  unfold map_page map_page_l1 map_page_l0
  simp only [h2, h1, if_true, Bool.false_eq_true, if_false, halloc, hs1,
    zero_table_hit, is_valid_zero]

/-- `map_page` when the level-2 entry is invalid: allocates two frames, one
as the level-1 table and one as the level-0 table. -/
theorem map_page_alloc_l1_l0 (mem : Memory) (root v p fl next endf : Nat)
    (h2 : PageTableEntry.is_valid (mem root (vpn2 v)) = false)
    (hfr : next + 2 ≤ endf) (hend : endf ≤ 2 ^ 44) :
    map_page mem root v p fl ⟨next, endf⟩ =
      (.ok (),
       update_entry
         (zero_table
           (update_entry
             (zero_table
               (update_entry mem root (vpn2 v) (PageTableEntry.set next FLAG_VALID))
               (next * 4096))
             (next * 4096) (vpn1 v) (PageTableEntry.set (next + 1) FLAG_VALID))
           ((next + 1) * 4096))
         ((next + 1) * 4096) (vpn0 v)
         (PageTableEntry.set (p >>> 12) (fl ||| FLAG_VALID)),
       ⟨next + 2, endf⟩) := by
  have hb1 : next < 2 ^ 52 := by omega
  have hb2 : next + 1 < 2 ^ 52 := by omega
  have halloc1 : SimpleFrameAllocator.allocate ⟨next, endf⟩ =
      some (next * 4096, ⟨next + 1, endf⟩) := by
    unfold SimpleFrameAllocator.allocate
    rw [if_neg (by simp only [ge_iff_le, not_le]; omega)]
    simp only [PAGE_SIZE, frame_containing_aligned hb1]
  have halloc2 : SimpleFrameAllocator.allocate ⟨next + 1, endf⟩ =
      some ((next + 1) * 4096, ⟨next + 2, endf⟩) := by
    unfold SimpleFrameAllocator.allocate
    rw [if_neg (by simp only [ge_iff_le, not_le]; omega)]
    simp only [PAGE_SIZE, frame_containing_aligned hb2]
  have hs1 : (next * 4096) >>> 12 = next := by
    rw [Nat.shiftRight_eq_div_pow]; omega
  have hs2 : ((next + 1) * 4096) >>> 12 = next + 1 := by
    rw [Nat.shiftRight_eq_div_pow]; omega
  unfold map_page map_page_l1 map_page_l0
  simp only [h2, Bool.false_eq_true, if_false, halloc1, halloc2, hs1, hs2,
    zero_table_hit, is_valid_zero]

/-- `map_page` out-of-memory at level 2. -/
theorem map_page_oom_l2 (mem : Memory) (root v p fl next endf : Nat)
    (h2 : PageTableEntry.is_valid (mem root (vpn2 v)) = false)
    (hge : endf ≤ next) :
    map_page mem root v p fl ⟨next, endf⟩ =
      (.error "Out of memory", mem, ⟨next, endf⟩) := by
  have halloc : SimpleFrameAllocator.allocate ⟨next, endf⟩ = none := by
    unfold SimpleFrameAllocator.allocate
    rw [if_pos (by simpa using hge)]
  unfold map_page
  simp only [h2, Bool.false_eq_true, if_false, halloc]

/-- `map_page` out-of-memory at level 1 after installing a fresh level-1
table (the partial effect of the error path is kept). -/
theorem map_page_oom_l1_fresh (mem : Memory) (root v p fl next endf : Nat)
    (h2 : PageTableEntry.is_valid (mem root (vpn2 v)) = false)
    (hlt : next < endf) (hge : endf ≤ next + 1) (hend : endf ≤ 2 ^ 44) :
    map_page mem root v p fl ⟨next, endf⟩ =
      (.error "Out of memory",
       zero_table (update_entry mem root (vpn2 v) (PageTableEntry.set next FLAG_VALID))
         (next * 4096),
       ⟨next + 1, endf⟩) := by
  have hb1 : next < 2 ^ 52 := by omega
  have halloc1 : SimpleFrameAllocator.allocate ⟨next, endf⟩ =
      some (next * 4096, ⟨next + 1, endf⟩) := by
    unfold SimpleFrameAllocator.allocate
    rw [if_neg (by simp only [ge_iff_le, not_le]; omega)]
    simp only [PAGE_SIZE, frame_containing_aligned hb1]
  have halloc2 : SimpleFrameAllocator.allocate ⟨next + 1, endf⟩ = none := by
    unfold SimpleFrameAllocator.allocate
    rw [if_pos (by simp only [ge_iff_le]; omega)]
  have hs1 : (next * 4096) >>> 12 = next := by
    rw [Nat.shiftRight_eq_div_pow]; omega
  unfold map_page map_page_l1
  simp only [h2, Bool.false_eq_true, if_false, halloc1, halloc2, hs1,
    zero_table_hit, is_valid_zero]

/-- `map_page` out-of-memory at level 1 when the level-2 entry was valid. -/
theorem map_page_oom_l1 (mem : Memory) (root v p fl next endf : Nat)
    (h2 : PageTableEntry.is_valid (mem root (vpn2 v)) = true)
    (h1 : PageTableEntry.is_valid
      (mem (PageTableEntry.phys_addr (mem root (vpn2 v))) (vpn1 v)) = false)
    (hge : endf ≤ next) :
    map_page mem root v p fl ⟨next, endf⟩ =
      (.error "Out of memory", mem, ⟨next, endf⟩) := by
  have halloc : SimpleFrameAllocator.allocate ⟨next, endf⟩ = none := by
    unfold SimpleFrameAllocator.allocate
    rw [if_pos (by simpa using hge)]
  unfold map_page map_page_l1
  simp only [h2, h1, if_true, Bool.false_eq_true, if_false, halloc]

/-- `map_page` already-mapped error: memory and allocator unchanged. -/
theorem map_page_already_eq (mem : Memory) (root v p fl : Nat)
    (alloc : SimpleFrameAllocator)
    (h2 : PageTableEntry.is_valid (mem root (vpn2 v)) = true)
    (h1 : PageTableEntry.is_valid
      (mem (PageTableEntry.phys_addr (mem root (vpn2 v))) (vpn1 v)) = true)
    (h0 : PageTableEntry.is_valid
      (mem (PageTableEntry.phys_addr
        (mem (PageTableEntry.phys_addr (mem root (vpn2 v))) (vpn1 v))) (vpn0 v)) = true) :
    map_page mem root v p fl alloc = (.error "Page already mapped", mem, alloc) := by
  unfold map_page map_page_l1 map_page_l0
  simp only [h2, h1, h0, if_true]

/-! ### Invariant-preserving step lemmas for `map_page` -/

/-- Case "descend twice": both intermediate entries valid, level-0 slot
free.  Only the reached level-0 table changes, at one index. -/
theorem map_page_step_descend (mem : Memory) (root v p fl : Nat) (next : Nat)
    (inv : PTInv mem root next)
    (hp : p < 2 ^ 56) (hfl : fl < 256)
    (h2 : PageTableEntry.is_valid (mem root (vpn2 v)) = true)
    (h1 : PageTableEntry.is_valid
      (mem (PageTableEntry.phys_addr (mem root (vpn2 v))) (vpn1 v)) = true) :
    PTInv (update_entry mem
        (PageTableEntry.phys_addr
          (mem (PageTableEntry.phys_addr (mem root (vpn2 v))) (vpn1 v)))
        (vpn0 v) (PageTableEntry.set (p >>> 12) (fl ||| FLAG_VALID))) root next ∧
    (∀ w, same_path w v →
      walk_page_table (update_entry mem
        (PageTableEntry.phys_addr
          (mem (PageTableEntry.phys_addr (mem root (vpn2 v))) (vpn1 v)))
        (vpn0 v) (PageTableEntry.set (p >>> 12) (fl ||| FLAG_VALID))) root w =
        some (p / 4096 * 4096 + w % 4096)) ∧
    (∀ w, ¬ same_path w v →
      walk_page_table (update_entry mem
        (PageTableEntry.phys_addr
          (mem (PageTableEntry.phys_addr (mem root (vpn2 v))) (vpn1 v)))
        (vpn0 v) (PageTableEntry.set (p >>> 12) (fl ||| FLAG_VALID))) root w =
        walk_page_table mem root w) ∧
    (∀ t, is_branch_target mem root t →
      is_branch_target (update_entry mem
        (PageTableEntry.phys_addr
          (mem (PageTableEntry.phys_addr (mem root (vpn2 v))) (vpn1 v)))
        (vpn0 v) (PageTableEntry.set (p >>> 12) (fl ||| FLAG_VALID))) root t) := by
  have hi2 : vpn2 v < 512 := vpn2_lt v
  have hi1 : vpn1 v < 512 := vpn1_lt v
  obtain ⟨hfl2, hlt2, hnr2⟩ := inv.l2 (vpn2 v) hi2 h2
  obtain ⟨hfl1, hlt1, hnr1⟩ := inv.l1 (vpn2 v) hi2 h2 (vpn1 v) hi1 h1
  have hl2 : PageTableEntry.is_leaf (mem root (vpn2 v)) = false := flags_one_not_leaf hfl2
  have hl1 : PageTableEntry.is_leaf
      (mem (PageTableEntry.phys_addr (mem root (vpn2 v))) (vpn1 v)) = false :=
    flags_one_not_leaf hfl1
  have hp44 : p >>> 12 < 2 ^ 44 := by rw [Nat.shiftRight_eq_div_pow]; omega
  have hroot_same : ∀ y, (update_entry mem
      (PageTableEntry.phys_addr
        (mem (PageTableEntry.phys_addr (mem root (vpn2 v))) (vpn1 v)))
      (vpn0 v) (PageTableEntry.set (p >>> 12) (fl ||| FLAG_VALID))) root y = mem root y :=
    fun y => update_entry_miss mem _ (Or.inl (Ne.symm hnr1))
  have ht1_same : ∀ i y, i < 512 → PageTableEntry.is_valid (mem root i) = true →
      (update_entry mem
        (PageTableEntry.phys_addr
          (mem (PageTableEntry.phys_addr (mem root (vpn2 v))) (vpn1 v)))
        (vpn0 v) (PageTableEntry.set (p >>> 12) (fl ||| FLAG_VALID)))
        (PageTableEntry.phys_addr (mem root i)) y =
        mem (PageTableEntry.phys_addr (mem root i)) y := by
    intro i y hi hv
    exact update_entry_miss mem _
      (Or.inl (Ne.symm (inv.t0_ne_t1 i (vpn2 v) (vpn1 v) hi hi2 hi1 hv h2 h1)))
  refine ⟨?_, ?_, ?_, ?_⟩
  · refine ⟨inv.root_lt, ?_, ?_, ?_, ?_, ?_⟩
    · intro i hi hv
      simp only [hroot_same] at hv ⊢
      exact inv.l2 i hi hv
    · intro i hi hv j hj hv'
      simp only [hroot_same] at hv hv' ⊢
      rw [ht1_same i j hi hv] at hv'
      rw [ht1_same i j hi hv]
      exact inv.l1 i hi hv j hj hv'
    · intro i i' hi hi' hv hv'
      simp only [hroot_same] at hv hv' ⊢
      exact inv.t1_inj i i' hi hi' hv hv'
    · intro i i' j' hi hi' hj' hv hv' hvv
      simp only [hroot_same] at hv hv' hvv ⊢
      rw [ht1_same i' j' hi' hv'] at hvv ⊢
      exact inv.t0_ne_t1 i i' j' hi hi' hj' hv hv' hvv
    · intro i j i' j' hi hj hi' hj' hv hvv hv' hvv'
      simp only [hroot_same] at hv hvv hv' hvv' ⊢
      rw [ht1_same i j hi hv] at hvv ⊢
      rw [ht1_same i' j' hi' hv'] at hvv' ⊢
      exact inv.t0_inj i j i' j' hi hj hi' hj' hv hvv hv' hvv'
  · intro w hsp
    obtain ⟨hsp2, hsp1, hsp0⟩ := hsp
    have r2 : (update_entry mem
        (PageTableEntry.phys_addr
          (mem (PageTableEntry.phys_addr (mem root (vpn2 v))) (vpn1 v)))
        (vpn0 v) (PageTableEntry.set (p >>> 12) (fl ||| FLAG_VALID))) root (vpn2 w) =
        mem root (vpn2 v) := by rw [hsp2]; exact hroot_same _
    have r1 : (update_entry mem
        (PageTableEntry.phys_addr
          (mem (PageTableEntry.phys_addr (mem root (vpn2 v))) (vpn1 v)))
        (vpn0 v) (PageTableEntry.set (p >>> 12) (fl ||| FLAG_VALID)))
        (PageTableEntry.phys_addr (mem root (vpn2 v))) (vpn1 w) =
        mem (PageTableEntry.phys_addr (mem root (vpn2 v))) (vpn1 v) := by
      rw [hsp1]; exact ht1_same (vpn2 v) (vpn1 v) hi2 h2
    have r0 : (update_entry mem
        (PageTableEntry.phys_addr
          (mem (PageTableEntry.phys_addr (mem root (vpn2 v))) (vpn1 v)))
        (vpn0 v) (PageTableEntry.set (p >>> 12) (fl ||| FLAG_VALID)))
        (PageTableEntry.phys_addr
          (mem (PageTableEntry.phys_addr (mem root (vpn2 v))) (vpn1 v))) (vpn0 w) =
        PageTableEntry.set (p >>> 12) (fl ||| FLAG_VALID) := by
      rw [hsp0]; exact update_entry_hit mem _ _ _
    rw [walk_via r2 h2 hl2 r1 h1 hl1 r0
      (PageTableEntry.is_valid_set hp44 (or_valid_lt (by omega)) (or_valid_odd fl))]
    rw [PageTableEntry.phys_addr_set hp44 (or_valid_lt (by omega)),
      Nat.shiftRight_eq_div_pow]
  · intro w hns
    refine walk_congr (hroot_same _) (fun hv2w _ => ht1_same (vpn2 w) (vpn1 w) (vpn2_lt w) hv2w) ?_
    intro hv2w hl2w hv1w hl1w
    by_cases hcase : vpn2 w = vpn2 v ∧ vpn1 w = vpn1 v
    · have ht0eq : PageTableEntry.phys_addr
          (mem (PageTableEntry.phys_addr (mem root (vpn2 w))) (vpn1 w)) =
          PageTableEntry.phys_addr
            (mem (PageTableEntry.phys_addr (mem root (vpn2 v))) (vpn1 v)) := by
        rw [hcase.1, hcase.2]
      have hi0ne : vpn0 w ≠ vpn0 v := by
        intro hc
        exact hns ⟨hcase.1, hcase.2, hc⟩
      rw [ht0eq]
      exact update_entry_miss mem _ (Or.inr hi0ne)
    · have ht0ne : PageTableEntry.phys_addr
          (mem (PageTableEntry.phys_addr (mem root (vpn2 w))) (vpn1 w)) ≠
          PageTableEntry.phys_addr
            (mem (PageTableEntry.phys_addr (mem root (vpn2 v))) (vpn1 v)) := by
        intro hc
        have := inv.t0_inj (vpn2 w) (vpn1 w) (vpn2 v) (vpn1 v)
          (vpn2_lt w) (vpn1_lt w) hi2 hi1 hv2w hv1w h2 h1 hc
        exact hcase ⟨this.1, this.2⟩
      exact update_entry_miss mem _ (Or.inl ht0ne)
  · intro t hbt
    rcases hbt with ⟨i, hi, hv, hl, hphys⟩ | ⟨i, j, hi, hj, hv, hl, hv', hl', hphys⟩
    · exact Or.inl ⟨i, hi, by rw [hroot_same]; exact hv, by rw [hroot_same]; exact hl,
        by rw [hroot_same]; exact hphys⟩
    · refine Or.inr ⟨i, j, hi, hj, ?_, ?_, ?_, ?_, ?_⟩
      · rw [hroot_same]; exact hv
      · rw [hroot_same]; exact hl
      · rw [hroot_same, ht1_same i j hi hv]; exact hv'
      · rw [hroot_same, ht1_same i j hi hv]; exact hl'
      · rw [hroot_same, ht1_same i j hi hv]; exact hphys

/-- Case "allocate level-0 table": the level-2 entry is a valid branch to
`T1`, the level-1 slot there is free; one fresh frame `next * 4096` becomes
the level-0 table. -/
theorem map_page_step_alloc_l0 (mem : Memory) (root v p fl next T1 : Nat)
    (hT1 : PageTableEntry.phys_addr (mem root (vpn2 v)) = T1)
    (inv : PTInv mem root next)
    (hp : p < 2 ^ 56) (hfl : fl < 256) (hn44 : next < 2 ^ 44)
    (h2 : PageTableEntry.is_valid (mem root (vpn2 v)) = true)
    (h1 : PageTableEntry.is_valid (mem T1 (vpn1 v)) = false) :
    ∀ M', M' = update_entry
        (zero_table (update_entry mem T1 (vpn1 v) (PageTableEntry.set next FLAG_VALID))
          (next * 4096))
        (next * 4096) (vpn0 v)
        (PageTableEntry.set (p >>> 12) (fl ||| FLAG_VALID)) →
      PTInv M' root (next + 1) ∧
      (∀ w, same_path w v →
        walk_page_table M' root w = some (p / 4096 * 4096 + w % 4096)) ∧
      (∀ w, ¬ same_path w v →
        walk_page_table M' root w = walk_page_table mem root w) ∧
      is_branch_target M' root (next * 4096) ∧
      (∀ t, is_branch_target mem root t → is_branch_target M' root t) := by
  intro M' hM'
  have hi2 : vpn2 v < 512 := vpn2_lt v
  have hi1 : vpn1 v < 512 := vpn1_lt v
  obtain ⟨hfl2, hlt2, hnr2⟩ := inv.l2 (vpn2 v) hi2 h2
  rw [hT1] at hlt2 hnr2
  have hl2 : PageTableEntry.is_leaf (mem root (vpn2 v)) = false := flags_one_not_leaf hfl2
  have hp44 : p >>> 12 < 2 ^ 44 := by rw [Nat.shiftRight_eq_div_pow]; omega
  have hrootF : root ≠ next * 4096 := by have := inv.root_lt; omega
  have hT1F : T1 ≠ next * 4096 := by omega
  have hpaB : PageTableEntry.phys_addr (PageTableEntry.set next FLAG_VALID) =
      next * 4096 := PageTableEntry.phys_addr_set hn44 (by decide)
  have hBvalid : PageTableEntry.is_valid (PageTableEntry.set next FLAG_VALID) = true :=
    PageTableEntry.is_valid_set hn44 (by decide) (by decide)
  have hBleaf : PageTableEntry.is_leaf (PageTableEntry.set next FLAG_VALID) = false :=
    PageTableEntry.is_leaf_set_valid_only hn44
  have hBflags : PageTableEntry.flags (PageTableEntry.set next FLAG_VALID) = FLAG_VALID := by
    rw [PageTableEntry.flags_set hn44 (by decide)]
    decide
  have hroot_same : ∀ y, M' root y = mem root y := by
    intro y
    rw [hM', update_entry_miss _ _ (Or.inl hrootF), zero_table_miss _ _ hrootF,
      update_entry_miss _ _ (Or.inl (Ne.symm hnr2))]
  have hT1_hit : M' T1 (vpn1 v) = PageTableEntry.set next FLAG_VALID := by
    rw [hM', update_entry_miss _ _ (Or.inl hT1F), zero_table_miss _ _ hT1F,
      update_entry_hit]
  have hT1_miss : ∀ y, y ≠ vpn1 v → M' T1 y = mem T1 y := by
    intro y hy
    rw [hM', update_entry_miss _ _ (Or.inl hT1F), zero_table_miss _ _ hT1F,
      update_entry_miss _ _ (Or.inr hy)]
  have hF_hit : M' (next * 4096) (vpn0 v) =
      PageTableEntry.set (p >>> 12) (fl ||| FLAG_VALID) := by
    rw [hM', update_entry_hit]
  have hF_miss : ∀ y, y ≠ vpn0 v → M' (next * 4096) y = 0 := by
    intro y hy
    rw [hM', update_entry_miss _ _ (Or.inr hy), zero_table_hit]
  have ht1_other : ∀ t y, t < next * 4096 → t ≠ T1 → M' t y = mem t y := by
    intro t y hlt hne
    rw [hM', update_entry_miss _ _ (Or.inl (by omega)), zero_table_miss _ _ (by omega),
      update_entry_miss _ _ (Or.inl hne)]
  have hT1_unique : ∀ i, i < 512 → PageTableEntry.is_valid (mem root i) = true →
      PageTableEntry.phys_addr (mem root i) = T1 → i = vpn2 v := by
    intro i hi hv hphys
    exact inv.t1_inj i (vpn2 v) hi hi2 hv h2 (by rw [hphys, hT1])
  -- uniform read identity at level 0 for walks through old branches
  have h0uniform : ∀ w,
      PageTableEntry.is_valid (mem root (vpn2 w)) = true →
      PageTableEntry.is_valid
        (mem (PageTableEntry.phys_addr (mem root (vpn2 w))) (vpn1 w)) = true →
      M' (PageTableEntry.phys_addr
        (mem (PageTableEntry.phys_addr (mem root (vpn2 w))) (vpn1 w))) (vpn0 w) =
      mem (PageTableEntry.phys_addr
        (mem (PageTableEntry.phys_addr (mem root (vpn2 w))) (vpn1 w))) (vpn0 w) := by
    intro w hv2w hv1w
    obtain ⟨_, hltT0, _⟩ := inv.l1 (vpn2 w) (vpn2_lt w) hv2w (vpn1 w) (vpn1_lt w) hv1w
    have hT0neT1 : PageTableEntry.phys_addr
        (mem (PageTableEntry.phys_addr (mem root (vpn2 w))) (vpn1 w)) ≠ T1 := by
      rw [← hT1]
      exact inv.t0_ne_t1 (vpn2 v) (vpn2 w) (vpn1 w) hi2 (vpn2_lt w) (vpn1_lt w)
        h2 hv2w hv1w
    exact ht1_other _ _ hltT0 hT0neT1
  refine ⟨?_, ?_, ?_, ?_, ?_⟩
  · -- invariant
    refine ⟨by have := inv.root_lt; omega, ?_, ?_, ?_, ?_, ?_⟩
    · intro i hi hv
      simp only [hroot_same] at hv ⊢
      obtain ⟨a, b, c⟩ := inv.l2 i hi hv
      exact ⟨a, by omega, c⟩
    · intro i hi hv j hj hv'
      simp only [hroot_same] at hv hv' ⊢
      by_cases hiT1 : PageTableEntry.phys_addr (mem root i) = T1
      · by_cases hjv : j = vpn1 v
        · rw [hiT1, hjv, hT1_hit] at hv' ⊢
          rw [hpaB]
          exact ⟨hBflags, by omega, Ne.symm hrootF⟩
        · rw [hiT1, hT1_miss j hjv] at hv' ⊢
          have hv'' : PageTableEntry.is_valid
              (mem (PageTableEntry.phys_addr (mem root i)) j) = true := by
            rw [hiT1]; exact hv'
          obtain ⟨a, b, c⟩ := inv.l1 i hi hv j hj hv''
          rw [hiT1] at a b c
          exact ⟨a, by omega, c⟩
      · obtain ⟨_, hltI, _⟩ := inv.l2 i hi hv
        rw [ht1_other _ j hltI hiT1] at hv' ⊢
        obtain ⟨a, b, c⟩ := inv.l1 i hi hv j hj hv'
        exact ⟨a, by omega, c⟩
    · intro i i' hi hi' hv hv'
      simp only [hroot_same] at hv hv' ⊢
      exact inv.t1_inj i i' hi hi' hv hv'
    · intro i i' j' hi hi' hj' hv hv' hvv
      simp only [hroot_same] at hv hv' hvv ⊢
      obtain ⟨_, hltI, _⟩ := inv.l2 i hi hv
      by_cases hiT1 : PageTableEntry.phys_addr (mem root i') = T1
      · by_cases hjv : j' = vpn1 v
        · rw [hiT1, hjv, hT1_hit] at hvv ⊢
          rw [hpaB]
          omega
        · rw [hiT1, hT1_miss j' hjv] at hvv ⊢
          have hvv0 : PageTableEntry.is_valid
              (mem (PageTableEntry.phys_addr (mem root i')) j') = true := by
            rw [hiT1]; exact hvv
          have hres := inv.t0_ne_t1 i i' j' hi hi' hj' hv hv' hvv0
          rw [hiT1] at hres
          exact hres
      · obtain ⟨_, hltI', _⟩ := inv.l2 i' hi' hv'
        rw [ht1_other _ j' hltI' hiT1] at hvv ⊢
        exact inv.t0_ne_t1 i i' j' hi hi' hj' hv hv' hvv
    · intro i j i' j' hi hj hi' hj' hv hvv hv' hvv'
      simp only [hroot_same] at hv hvv hv' hvv' ⊢
      have hchar : ∀ a b, a < 512 → b < 512 →
          PageTableEntry.is_valid (mem root a) = true →
          PageTableEntry.is_valid (M' (PageTableEntry.phys_addr (mem root a)) b) = true →
          (a = vpn2 v ∧ b = vpn1 v ∧
            PageTableEntry.phys_addr (M' (PageTableEntry.phys_addr (mem root a)) b) =
              next * 4096) ∨
          (PageTableEntry.is_valid
              (mem (PageTableEntry.phys_addr (mem root a)) b) = true ∧
            PageTableEntry.phys_addr (M' (PageTableEntry.phys_addr (mem root a)) b) =
              PageTableEntry.phys_addr (mem (PageTableEntry.phys_addr (mem root a)) b) ∧
            PageTableEntry.phys_addr (mem (PageTableEntry.phys_addr (mem root a)) b) <
              next * 4096) := by
        intro a b ha hb hva hvb
        by_cases haT1 : PageTableEntry.phys_addr (mem root a) = T1
        · by_cases hbv : b = vpn1 v
          · refine Or.inl ⟨hT1_unique a ha hva haT1, hbv, ?_⟩
            rw [haT1, hbv, hT1_hit, hpaB]
          · rw [haT1, hT1_miss b hbv] at hvb ⊢
            have hvb0 : PageTableEntry.is_valid
                (mem (PageTableEntry.phys_addr (mem root a)) b) = true := by
              rw [haT1]; exact hvb
            obtain ⟨_, hbnd, _⟩ := inv.l1 a ha hva b hb hvb0
            rw [haT1] at hbnd
            exact Or.inr ⟨hvb, rfl, hbnd⟩
        · obtain ⟨_, hltA, _⟩ := inv.l2 a ha hva
          rw [ht1_other _ b hltA haT1] at hvb ⊢
          obtain ⟨_, hbnd, _⟩ := inv.l1 a ha hva b hb hvb
          exact Or.inr ⟨hvb, rfl, hbnd⟩
      rcases hchar i j hi hj hv hvv with ⟨he1, he2, he3⟩ | ⟨ho1, ho2, ho3⟩ <;>
        rcases hchar i' j' hi' hj' hv' hvv' with ⟨hf1, hf2, hf3⟩ | ⟨hp1, hp2, hp3⟩
      · exact fun _ => ⟨he1.trans hf1.symm, he2.trans hf2.symm⟩
      · intro hc
        rw [he3, hp2] at hc
        omega
      · intro hc
        rw [ho2, hf3] at hc
        omega
      · intro hc
        rw [ho2, hp2] at hc
        exact inv.t0_inj i j i' j' hi hj hi' hj' hv ho1 hv' hp1 hc
  · -- establishment
    intro w hsp
    obtain ⟨hsp2, hsp1, hsp0⟩ := hsp
    have r2 : M' root (vpn2 w) = mem root (vpn2 v) := by
      rw [hsp2]; exact hroot_same _
    have r1 : M' (PageTableEntry.phys_addr (mem root (vpn2 v))) (vpn1 w) =
        PageTableEntry.set next FLAG_VALID := by
      rw [hsp1, hT1]; exact hT1_hit
    have r0 : M' (PageTableEntry.phys_addr (PageTableEntry.set next FLAG_VALID)) (vpn0 w) =
        PageTableEntry.set (p >>> 12) (fl ||| FLAG_VALID) := by
      rw [hsp0, hpaB]; exact hF_hit
    rw [walk_via r2 h2 hl2 r1 hBvalid hBleaf r0
      (PageTableEntry.is_valid_set hp44 (or_valid_lt (by omega)) (or_valid_odd fl))]
    rw [PageTableEntry.phys_addr_set hp44 (or_valid_lt (by omega)),
      Nat.shiftRight_eq_div_pow]
  · -- preservation
    intro w hns
    by_cases hc2 : vpn2 w = vpn2 v
    · by_cases hc1 : vpn1 w = vpn1 v
      · have hc0 : vpn0 w ≠ vpn0 v := fun hc => hns ⟨hc2, hc1, hc⟩
        have hrhs : walk_page_table mem root w = none := by
          refine walk_none_l1 ?_ ?_ ?_
          · rw [hc2]; exact h2
          · rw [hc2]; exact hl2
          · rw [hc2, hT1, hc1]; exact h1
        have hlhs : walk_page_table M' root w = none := by
          refine walk_none_l0 ?_ ?_ ?_ ?_ ?_
          · rw [hroot_same, hc2]; exact h2
          · rw [hroot_same, hc2]; exact hl2
          · rw [hroot_same, hc2, hT1, hc1, hT1_hit]; exact hBvalid
          · rw [hroot_same, hc2, hT1, hc1, hT1_hit]; exact hBleaf
          · rw [hroot_same, hc2, hT1, hc1, hT1_hit, hpaB, hF_miss _ hc0]
            exact is_valid_zero
        rw [hlhs, hrhs]
      · refine walk_congr (hroot_same _) ?_ ?_
        · intro hv2w hl2w
          rw [hc2, hT1]
          exact hT1_miss _ hc1
        · intro hv2w hl2w hv1w hl1w
          exact h0uniform w hv2w hv1w
    · refine walk_congr (hroot_same _) ?_ ?_
      · intro hv2w hl2w
        obtain ⟨_, hltW, _⟩ := inv.l2 (vpn2 w) (vpn2_lt w) hv2w
        exact ht1_other _ _ hltW
          (fun hc => hc2 (hT1_unique _ (vpn2_lt w) hv2w hc))
      · intro hv2w hl2w hv1w hl1w
        exact h0uniform w hv2w hv1w
  · -- the fresh frame is a branch target
    refine Or.inr ⟨vpn2 v, vpn1 v, hi2, hi1, ?_, ?_, ?_, ?_, ?_⟩
    · rw [hroot_same]; exact h2
    · rw [hroot_same]; exact hl2
    · rw [hroot_same, hT1, hT1_hit]; exact hBvalid
    · rw [hroot_same, hT1, hT1_hit]; exact hBleaf
    · rw [hroot_same, hT1, hT1_hit, hpaB]
  · -- persistence of branch targets
    intro t hbt
    rcases hbt with ⟨i, hi, hv, hl, hphys⟩ | ⟨i, j, hi, hj, hv, hl, hv', hl', hphys⟩
    · exact Or.inl ⟨i, hi, by rw [hroot_same]; exact hv, by rw [hroot_same]; exact hl,
        by rw [hroot_same]; exact hphys⟩
    · refine Or.inr ⟨i, j, hi, hj, ?_, ?_, ?_, ?_, ?_⟩
      · rw [hroot_same]; exact hv
      · rw [hroot_same]; exact hl
      all_goals
        obtain ⟨_, hltI, _⟩ := inv.l2 i hi hv
        rw [hroot_same]
        by_cases hiT1 : PageTableEntry.phys_addr (mem root i) = T1
        · have hjne : j ≠ vpn1 v := by
            intro hc
            rw [hiT1, hc, h1] at hv'
            exact absurd hv' (by decide)
          rw [hiT1, hT1_miss j hjne, ← hiT1]
          first
            | exact hv'
            | exact hl'
            | exact hphys
        · rw [ht1_other _ j hltI hiT1]
          first
            | exact hv'
            | exact hl'
            | exact hphys

/-- Case "allocate both tables": the level-2 slot is free; fresh frames
`next * 4096` and `(next + 1) * 4096` become the level-1 and level-0
tables. -/
theorem map_page_step_alloc_l1_l0 (mem : Memory) (root v p fl next : Nat)
    (inv : PTInv mem root next)
    (hp : p < 2 ^ 56) (hfl : fl < 256) (hn44 : next + 1 < 2 ^ 44)
    (h2 : PageTableEntry.is_valid (mem root (vpn2 v)) = false) :
    ∀ M', M' = update_entry
        (zero_table
          (update_entry
            (zero_table
              (update_entry mem root (vpn2 v) (PageTableEntry.set next FLAG_VALID))
              (next * 4096))
            (next * 4096) (vpn1 v) (PageTableEntry.set (next + 1) FLAG_VALID))
          ((next + 1) * 4096))
        ((next + 1) * 4096) (vpn0 v)
        (PageTableEntry.set (p >>> 12) (fl ||| FLAG_VALID)) →
      PTInv M' root (next + 2) ∧
      (∀ w, same_path w v →
        walk_page_table M' root w = some (p / 4096 * 4096 + w % 4096)) ∧
      (∀ w, ¬ same_path w v →
        walk_page_table M' root w = walk_page_table mem root w) ∧
      (is_branch_target M' root (next * 4096) ∧
        is_branch_target M' root ((next + 1) * 4096)) ∧
      (∀ t, is_branch_target mem root t → is_branch_target M' root t) := by
  intro M' hM'
  have hi2 : vpn2 v < 512 := vpn2_lt v
  have hi1 : vpn1 v < 512 := vpn1_lt v
  have hrlt : root < next * 4096 := inv.root_lt
  have hp44 : p >>> 12 < 2 ^ 44 := by rw [Nat.shiftRight_eq_div_pow]; omega
  have hrootF1 : root ≠ next * 4096 := by omega
  have hrootF2 : root ≠ (next + 1) * 4096 := by omega
  have hF1F2 : next * 4096 ≠ (next + 1) * 4096 := by omega
  have hn44' : next < 2 ^ 44 := by omega
  have hpaB1 : PageTableEntry.phys_addr (PageTableEntry.set next FLAG_VALID) =
      next * 4096 := PageTableEntry.phys_addr_set hn44' (by decide)
  have hpaB2 : PageTableEntry.phys_addr (PageTableEntry.set (next + 1) FLAG_VALID) =
      (next + 1) * 4096 := PageTableEntry.phys_addr_set hn44 (by decide)
  have hB1valid : PageTableEntry.is_valid (PageTableEntry.set next FLAG_VALID) = true :=
    PageTableEntry.is_valid_set hn44' (by decide) (by decide)
  have hB1leaf : PageTableEntry.is_leaf (PageTableEntry.set next FLAG_VALID) = false :=
    PageTableEntry.is_leaf_set_valid_only hn44'
  have hB1flags : PageTableEntry.flags (PageTableEntry.set next FLAG_VALID) = FLAG_VALID := by
    rw [PageTableEntry.flags_set hn44' (by decide)]
    decide
  have hB2valid : PageTableEntry.is_valid (PageTableEntry.set (next + 1) FLAG_VALID) = true :=
    PageTableEntry.is_valid_set hn44 (by decide) (by decide)
  have hB2leaf : PageTableEntry.is_leaf (PageTableEntry.set (next + 1) FLAG_VALID) = false :=
    PageTableEntry.is_leaf_set_valid_only hn44
  have hB2flags : PageTableEntry.flags (PageTableEntry.set (next + 1) FLAG_VALID) =
      FLAG_VALID := by
    rw [PageTableEntry.flags_set hn44 (by decide)]
    decide
  have hroot_hit : M' root (vpn2 v) = PageTableEntry.set next FLAG_VALID := by
    rw [hM', update_entry_miss _ _ (Or.inl hrootF2), zero_table_miss _ _ hrootF2,
      update_entry_miss _ _ (Or.inl hrootF1), zero_table_miss _ _ hrootF1,
      update_entry_hit]
  have hroot_miss : ∀ y, y ≠ vpn2 v → M' root y = mem root y := by
    intro y hy
    rw [hM', update_entry_miss _ _ (Or.inl hrootF2), zero_table_miss _ _ hrootF2,
      update_entry_miss _ _ (Or.inl hrootF1), zero_table_miss _ _ hrootF1,
      update_entry_miss _ _ (Or.inr hy)]
  have hF1_hit : M' (next * 4096) (vpn1 v) = PageTableEntry.set (next + 1) FLAG_VALID := by
    rw [hM', update_entry_miss _ _ (Or.inl hF1F2), zero_table_miss _ _ hF1F2,
      update_entry_hit]
  have hF1_miss : ∀ y, y ≠ vpn1 v → M' (next * 4096) y = 0 := by
    intro y hy
    rw [hM', update_entry_miss _ _ (Or.inl hF1F2), zero_table_miss _ _ hF1F2,
      update_entry_miss _ _ (Or.inr hy), zero_table_hit]
  have hF2_hit : M' ((next + 1) * 4096) (vpn0 v) =
      PageTableEntry.set (p >>> 12) (fl ||| FLAG_VALID) := by
    rw [hM', update_entry_hit]
  have hF2_miss : ∀ y, y ≠ vpn0 v → M' ((next + 1) * 4096) y = 0 := by
    intro y hy
    rw [hM', update_entry_miss _ _ (Or.inr hy), zero_table_hit]
  have hold : ∀ t y, t < next * 4096 → t ≠ root → M' t y = mem t y := by
    intro t y hlt hne
    rw [hM', update_entry_miss _ _ (Or.inl (by omega)), zero_table_miss _ _ (by omega),
      update_entry_miss _ _ (Or.inl (by omega)), zero_table_miss _ _ (by omega),
      update_entry_miss _ _ (Or.inl hne)]
  have ht1char : ∀ a, a < 512 → PageTableEntry.is_valid (M' root a) = true →
      (a = vpn2 v ∧ M' root a = PageTableEntry.set next FLAG_VALID) ∨
      (M' root a = mem root a ∧ PageTableEntry.is_valid (mem root a) = true ∧
        PageTableEntry.phys_addr (mem root a) < next * 4096 ∧
        PageTableEntry.phys_addr (mem root a) ≠ root ∧
        PageTableEntry.flags (mem root a) = FLAG_VALID) := by
    intro a ha hva
    by_cases hca : a = vpn2 v
    · exact Or.inl ⟨hca, by rw [hca]; exact hroot_hit⟩
    · have hEq := hroot_miss a hca
      rw [hEq] at hva
      obtain ⟨hFl, hLt, hNe⟩ := inv.l2 a ha hva
      exact Or.inr ⟨hEq, hva, hLt, hNe, hFl⟩
  have hchar : ∀ a b, a < 512 → b < 512 →
      PageTableEntry.is_valid (M' root a) = true →
      PageTableEntry.is_valid (M' (PageTableEntry.phys_addr (M' root a)) b) = true →
      (a = vpn2 v ∧ b = vpn1 v ∧
        M' root a = PageTableEntry.set next FLAG_VALID ∧
        M' (PageTableEntry.phys_addr (M' root a)) b =
          PageTableEntry.set (next + 1) FLAG_VALID) ∨
      (M' root a = mem root a ∧
        M' (PageTableEntry.phys_addr (M' root a)) b =
          mem (PageTableEntry.phys_addr (mem root a)) b ∧
        PageTableEntry.is_valid (mem root a) = true ∧
        PageTableEntry.is_valid (mem (PageTableEntry.phys_addr (mem root a)) b) = true ∧
        PageTableEntry.phys_addr (mem (PageTableEntry.phys_addr (mem root a)) b) <
          next * 4096 ∧
        PageTableEntry.flags (mem (PageTableEntry.phys_addr (mem root a)) b) =
          FLAG_VALID ∧
        PageTableEntry.phys_addr (mem (PageTableEntry.phys_addr (mem root a)) b) ≠
          root) := by
    intro a b ha hb hva hvb
    by_cases hca : a = vpn2 v
    · have hEa : M' root a = PageTableEntry.set next FLAG_VALID := by
        rw [hca]; exact hroot_hit
      rw [hEa, hpaB1] at hvb
      by_cases hcb : b = vpn1 v
      · refine Or.inl ⟨hca, hcb, hEa, ?_⟩
        rw [hEa, hpaB1, hcb]
        exact hF1_hit
      · rw [hF1_miss b hcb] at hvb
        exact absurd hvb (by decide)
    · have hEq := hroot_miss a hca
      rw [hEq] at hva
      obtain ⟨_, hLt, hNe⟩ := inv.l2 a ha hva
      have hEt : M' (PageTableEntry.phys_addr (M' root a)) b =
          mem (PageTableEntry.phys_addr (mem root a)) b := by
        rw [hEq]
        exact hold _ b hLt hNe
      rw [hEt] at hvb
      obtain ⟨hFl', hLt', hNe'⟩ := inv.l1 a ha hva b hb hvb
      exact Or.inr ⟨hEq, hEt, hva, hvb, hLt', hFl', hNe'⟩
  refine ⟨?_, ?_, ?_, ⟨?_, ?_⟩, ?_⟩
  · -- invariant
    refine ⟨by omega, ?_, ?_, ?_, ?_, ?_⟩
    · intro i hi hv
      rcases ht1char i hi hv with ⟨_, hE⟩ | ⟨hE, _, hLt, hNe, hFl⟩
      · rw [hE, hpaB1]
        exact ⟨hB1flags, by omega, Ne.symm hrootF1⟩
      · rw [hE]
        obtain ⟨hFl2, hLt2, hNe2⟩ := inv.l2 i hi (by rw [← hE]; exact (hE ▸ hv))
        exact ⟨hFl, by omega, hNe⟩
    · intro i hi hv j hj hv'
      rcases hchar i j hi hj hv hv' with ⟨_, _, _, hEb⟩ | ⟨_, hEt, _, _, hLt, hFl, hNe⟩
      · rw [hEb, hpaB2]
        exact ⟨hB2flags, by omega, Ne.symm hrootF2⟩
      · rw [hEt]
        exact ⟨hFl, by omega, hNe⟩
    · intro i i' hi hi' hv hv'
      rcases ht1char i hi hv with ⟨ha1, ha2⟩ | ⟨hb1, hb2, hb3, hb4, hb5⟩ <;>
        rcases ht1char i' hi' hv' with ⟨hc1, hc2⟩ | ⟨hd1, hd2, hd3, hd4, hd5⟩
      · exact fun _ => ha1.trans hc1.symm
      · intro hcon
        rw [ha2, hpaB1, hd1] at hcon
        omega
      · intro hcon
        rw [hb1, hc2, hpaB1] at hcon
        omega
      · intro hcon
        rw [hb1, hd1] at hcon
        exact inv.t1_inj i i' hi hi' hb2 hd2 hcon
    · intro i i' j' hi hi' hj' hv hv' hvv
      rcases ht1char i hi hv with ⟨ha1, ha2⟩ | ⟨hb1, hb2, hb3, hb4, hb5⟩ <;>
        rcases hchar i' j' hi' hj' hv' hvv with ⟨hc1, hc2, hc3, hc4⟩ |
          ⟨hd1, hd2, hd3, hd4, hd5, hd6, hd7⟩
      · rw [ha2, hpaB1, hc4, hpaB2]
        omega
      · rw [ha2, hpaB1, hd2]
        omega
      · rw [hb1, hc4, hpaB2]
        omega
      · rw [hb1, hd2]
        exact inv.t0_ne_t1 i i' j' hi hi' hj' hb2 hd3 hd4
    · intro i j i' j' hi hj hi' hj' hv hvv hv' hvv'
      rcases hchar i j hi hj hv hvv with ⟨ha1, ha2, ha3, ha4⟩ |
          ⟨hb1, hb2, hb3, hb4, hb5, hb6, hb7⟩ <;>
        rcases hchar i' j' hi' hj' hv' hvv' with ⟨hc1, hc2, hc3, hc4⟩ |
          ⟨hd1, hd2, hd3, hd4, hd5, hd6, hd7⟩
      · exact fun _ => ⟨ha1.trans hc1.symm, ha2.trans hc2.symm⟩
      · intro hcon
        rw [ha4, hpaB2, hd2] at hcon
        omega
      · intro hcon
        rw [hb2, hc4, hpaB2] at hcon
        omega
      · intro hcon
        rw [hb2, hd2] at hcon
        exact inv.t0_inj i j i' j' hi hj hi' hj' hb3 hb4 hd3 hd4 hcon
  · -- establishment
    intro w hsp
    obtain ⟨hsp2, hsp1, hsp0⟩ := hsp
    have r2 : M' root (vpn2 w) = PageTableEntry.set next FLAG_VALID := by
      rw [hsp2]; exact hroot_hit
    have r1 : M' (PageTableEntry.phys_addr (PageTableEntry.set next FLAG_VALID)) (vpn1 w) =
        PageTableEntry.set (next + 1) FLAG_VALID := by
      rw [hsp1, hpaB1]; exact hF1_hit
    have r0 : M' (PageTableEntry.phys_addr (PageTableEntry.set (next + 1) FLAG_VALID))
        (vpn0 w) = PageTableEntry.set (p >>> 12) (fl ||| FLAG_VALID) := by
      rw [hsp0, hpaB2]; exact hF2_hit
    rw [walk_via r2 hB1valid hB1leaf r1 hB2valid hB2leaf r0
      (PageTableEntry.is_valid_set hp44 (or_valid_lt (by omega)) (or_valid_odd fl))]
    rw [PageTableEntry.phys_addr_set hp44 (or_valid_lt (by omega)),
      Nat.shiftRight_eq_div_pow]
  · -- preservation
    intro w hns
    by_cases hc2 : vpn2 w = vpn2 v
    · have hrhs : walk_page_table mem root w = none :=
        walk_none_l2 (by rw [hc2]; exact h2)
      rw [hrhs]
      by_cases hc1 : vpn1 w = vpn1 v
      · have hc0 : vpn0 w ≠ vpn0 v := fun hc => hns ⟨hc2, hc1, hc⟩
        refine walk_none_l0 ?_ ?_ ?_ ?_ ?_
        · rw [hc2, hroot_hit]; exact hB1valid
        · rw [hc2, hroot_hit]; exact hB1leaf
        · rw [hc2, hroot_hit, hpaB1, hc1, hF1_hit]; exact hB2valid
        · rw [hc2, hroot_hit, hpaB1, hc1, hF1_hit]; exact hB2leaf
        · rw [hc2, hroot_hit, hpaB1, hc1, hF1_hit, hpaB2, hF2_miss _ hc0]
          exact is_valid_zero
      · refine walk_none_l1 ?_ ?_ ?_
        · rw [hc2, hroot_hit]; exact hB1valid
        · rw [hc2, hroot_hit]; exact hB1leaf
        · rw [hc2, hroot_hit, hpaB1, hF1_miss _ hc1]
          exact is_valid_zero
    · refine walk_congr (hroot_miss _ hc2) ?_ ?_
      · intro hv2w hl2w
        obtain ⟨_, hltW, hneW⟩ := inv.l2 (vpn2 w) (vpn2_lt w) hv2w
        exact hold _ _ hltW hneW
      · intro hv2w hl2w hv1w hl1w
        obtain ⟨_, hltT0, hneT0⟩ :=
          inv.l1 (vpn2 w) (vpn2_lt w) hv2w (vpn1 w) (vpn1_lt w) hv1w
        exact hold _ _ hltT0 hneT0
  · -- the level-1 frame is a branch target
    exact Or.inl ⟨vpn2 v, hi2, by rw [hroot_hit]; exact hB1valid,
      by rw [hroot_hit]; exact hB1leaf, by rw [hroot_hit, hpaB1]⟩
  · -- the level-0 frame is a branch target
    refine Or.inr ⟨vpn2 v, vpn1 v, hi2, hi1, ?_, ?_, ?_, ?_, ?_⟩
    · rw [hroot_hit]; exact hB1valid
    · rw [hroot_hit]; exact hB1leaf
    · rw [hroot_hit, hpaB1, hF1_hit]; exact hB2valid
    · rw [hroot_hit, hpaB1, hF1_hit]; exact hB2leaf
    · rw [hroot_hit, hpaB1, hF1_hit, hpaB2]
  · -- persistence of branch targets
    intro t hbt
    rcases hbt with ⟨i, hi, hv, hl, hphys⟩ | ⟨i, j, hi, hj, hv, hl, hv', hl', hphys⟩
    · have hne : i ≠ vpn2 v := by
        intro hc
        rw [hc, h2] at hv
        exact absurd hv (by decide)
      exact Or.inl ⟨i, hi, by rw [hroot_miss i hne]; exact hv,
        by rw [hroot_miss i hne]; exact hl, by rw [hroot_miss i hne]; exact hphys⟩
    · have hne : i ≠ vpn2 v := by
        intro hc
        rw [hc, h2] at hv
        exact absurd hv (by decide)
      obtain ⟨_, hltI, hneI⟩ := inv.l2 i hi hv
      refine Or.inr ⟨i, j, hi, hj, ?_, ?_, ?_, ?_, ?_⟩
      · rw [hroot_miss i hne]; exact hv
      · rw [hroot_miss i hne]; exact hl
      · rw [hroot_miss i hne, hold _ j hltI hneI]; exact hv'
      · rw [hroot_miss i hne, hold _ j hltI hneI]; exact hl'
      · rw [hroot_miss i hne, hold _ j hltI hneI]; exact hphys

/-- One successful `map_page` call preserves the tree invariant, keeps the
allocator bound, establishes the mapped translation, leaves every other
walk unchanged, turns every consumed frame into a branch table, and keeps
all existing branch tables. -/
theorem map_page_step (mem : Memory) (root v p fl : Nat) (alloc : SimpleFrameAllocator)
    (inv : PTInv mem root alloc.next_frame)
    (hend : alloc.end_frame ≤ 2 ^ 44)
    (hp : p < 2 ^ 56) (hfl : fl < 256)
    (hok : (map_page mem root v p fl alloc).1 = Except.ok ()) :
    (map_page mem root v p fl alloc).2.2.end_frame = alloc.end_frame ∧
    alloc.next_frame ≤ (map_page mem root v p fl alloc).2.2.next_frame ∧
    PTInv (map_page mem root v p fl alloc).2.1 root
      (map_page mem root v p fl alloc).2.2.next_frame ∧
    (∀ w, same_path w v →
      walk_page_table (map_page mem root v p fl alloc).2.1 root w =
        some (p / 4096 * 4096 + w % 4096)) ∧
    (∀ w, ¬ same_path w v →
      walk_page_table (map_page mem root v p fl alloc).2.1 root w =
        walk_page_table mem root w) ∧
    (∀ f, alloc.next_frame ≤ f → f < (map_page mem root v p fl alloc).2.2.next_frame →
      is_branch_target (map_page mem root v p fl alloc).2.1 root (f * 4096)) ∧
    (∀ t, is_branch_target mem root t →
      is_branch_target (map_page mem root v p fl alloc).2.1 root t) := by
  obtain ⟨next, endf⟩ := alloc
  simp only at inv hend hok ⊢
  cases hv2 : PageTableEntry.is_valid (mem root (vpn2 v)) with
  | true =>
    cases hv1 : PageTableEntry.is_valid
        (mem (PageTableEntry.phys_addr (mem root (vpn2 v))) (vpn1 v)) with
    | true =>
      cases hv0 : PageTableEntry.is_valid
          (mem (PageTableEntry.phys_addr
            (mem (PageTableEntry.phys_addr (mem root (vpn2 v))) (vpn1 v))) (vpn0 v)) with
      | true =>
        exfalso
        rw [map_page_already_eq mem root v p fl ⟨next, endf⟩ hv2 hv1 hv0] at hok
        exact Except.noConfusion hok
      | false =>
        obtain ⟨sInv, sEst, sPres, sPers⟩ :=
          map_page_step_descend mem root v p fl next inv hp hfl hv2 hv1
        rw [map_page_install_l0 mem root v p fl ⟨next, endf⟩ hv2 hv1 hv0]
        dsimp only
        exact ⟨rfl, Nat.le_refl _, sInv, sEst, sPres,
          fun f hf1 hf2 => absurd (Nat.lt_of_le_of_lt hf1 hf2) (Nat.lt_irrefl next), sPers⟩
    | false =>
      have hlt : next < endf := by
        by_contra hge
        rw [map_page_oom_l1 mem root v p fl next endf hv2 hv1 (by omega)] at hok
        exact Except.noConfusion hok
      have hn44 : next < 2 ^ 44 := by omega
      obtain ⟨sInv, sEst, sPres, sNew, sPers⟩ :=
        map_page_step_alloc_l0 mem root v p fl next
          (PageTableEntry.phys_addr (mem root (vpn2 v))) rfl inv hp hfl hn44 hv2 hv1 _ rfl
      rw [map_page_alloc_l0 mem root v p fl next endf hv2 hv1 hlt hend]
      dsimp only
      refine ⟨rfl, Nat.le_succ _, sInv, sEst, sPres, ?_, sPers⟩
      intro f hf1 hf2
      have hfn : f = next := by omega
      rw [hfn]
      exact sNew
  | false =>
    have h2le : next + 2 ≤ endf := by
      by_contra hlt2
      by_cases hc : endf ≤ next
      · rw [map_page_oom_l2 mem root v p fl next endf hv2 hc] at hok
        exact Except.noConfusion hok
      · rw [map_page_oom_l1_fresh mem root v p fl next endf hv2 (by omega) (by omega)
          hend] at hok
        exact Except.noConfusion hok
    obtain ⟨sInv, sEst, sPres, ⟨sNew1, sNew2⟩, sPers⟩ :=
      map_page_step_alloc_l1_l0 mem root v p fl next inv hp hfl (by omega) hv2 _ rfl
    rw [map_page_alloc_l1_l0 mem root v p fl next endf hv2 h2le hend]
    dsimp only
    refine ⟨rfl, by omega, sInv, sEst, sPres, ?_, sPers⟩
    intro f hf1 hf2
    rcases (by omega : f = next ∨ f = next + 1) with h | h <;> rw [h]
    · exact sNew1
    · exact sNew2

/-- The identity-mapping page loop: if it succeeds, every page of the
region translates to itself, walks outside the region are untouched, every
consumed frame became a branch table, and existing branch tables survive. -/
theorem map_pages_identity_spec (root fl : Nat) (hfl : fl < 256) :
    ∀ n (mem : Memory) (alloc : SimpleFrameAllocator) (start : Nat),
    PTInv mem root alloc.next_frame →
    alloc.end_frame ≤ 2 ^ 44 →
    start + n * 4096 ≤ 2 ^ 39 →
    (map_pages_identity mem root start fl alloc n).1 = Except.ok () →
    (map_pages_identity mem root start fl alloc n).2.2.end_frame = alloc.end_frame ∧
    alloc.next_frame ≤ (map_pages_identity mem root start fl alloc n).2.2.next_frame ∧
    PTInv (map_pages_identity mem root start fl alloc n).2.1 root
      (map_pages_identity mem root start fl alloc n).2.2.next_frame ∧
    (∀ i, i < n →
      walk_page_table (map_pages_identity mem root start fl alloc n).2.1 root
        (start + i * 4096) = some (start + i * 4096)) ∧
    (∀ w, (∀ i, i < n → ¬ same_path w (start + i * 4096)) →
      walk_page_table (map_pages_identity mem root start fl alloc n).2.1 root w =
        walk_page_table mem root w) ∧
    (∀ f, alloc.next_frame ≤ f →
      f < (map_pages_identity mem root start fl alloc n).2.2.next_frame →
      is_branch_target (map_pages_identity mem root start fl alloc n).2.1 root
        (f * 4096)) ∧
    (∀ t, is_branch_target mem root t →
      is_branch_target (map_pages_identity mem root start fl alloc n).2.1 root t) := by
  intro n
  induction n with
  | zero =>
    intro mem alloc start hinv hend hbound hok
    exact ⟨rfl, Nat.le_refl _, hinv, fun i hi => absurd hi (Nat.not_lt_zero i),
      fun w _ => rfl, fun f hf1 hf2 => absurd (Nat.lt_of_le_of_lt hf1 hf2)
        (Nat.lt_irrefl _), fun t ht => ht⟩
  | succ n ih =>
    intro mem alloc start hinv hend hbound hok
    rcases hm : map_page mem root start start fl alloc with ⟨r1, M1, a1⟩
    have hok1 : r1 = Except.ok () := by
      cases r1 with
      | ok u => cases u; rfl
      | error e =>
        rw [show map_pages_identity mem root start fl alloc (n + 1) =
            (.error e, M1, a1) from by simp only [map_pages_identity, hm]] at hok
        exact Except.noConfusion hok
    subst hok1
    have hexp : map_pages_identity mem root start fl alloc (n + 1) =
        map_pages_identity M1 root (start + PAGE_SIZE) fl a1 n := by
      simp only [map_pages_identity, hm]
    rw [hexp] at hok ⊢
    have hokm : (map_page mem root start start fl alloc).1 = .ok () := by rw [hm]
    obtain ⟨stEnd, stLe, stInv, stEst, stPres, stNew, stPers⟩ :=
      map_page_step mem root start start fl alloc hinv hend (by omega) hfl hokm
    rw [hm] at stEnd stLe stInv stEst stPres stNew stPers
    dsimp only at stEnd stLe stInv stEst stPres stNew stPers
    have hbound' : start + PAGE_SIZE + n * 4096 ≤ 2 ^ 39 := by
      simp only [PAGE_SIZE]; omega
    obtain ⟨ihEnd, ihLe, ihInv, ihEst, ihPres, ihNew, ihPers⟩ :=
      ih M1 a1 (start + PAGE_SIZE) stInv (by rw [stEnd]; exact hend) hbound' hok
    refine ⟨?_, ?_, ihInv, ?_, ?_, ?_, ?_⟩
    · rw [ihEnd, stEnd]
    · exact Nat.le_trans stLe ihLe
    · intro i hi
      cases i with
      | zero =>
        have hi0 : start + 0 * 4096 = start := by omega
        rw [hi0]
        have hw : walk_page_table M1 root start = some start := by
          rw [stEst start ⟨rfl, rfl, rfl⟩]
          congr 1
          omega
        have hdiff : ∀ j, j < n → ¬ same_path start (start + PAGE_SIZE + j * 4096) := by
          intro j hj
          rw [same_path_iff (by omega) (by simp only [PAGE_SIZE]; omega)]
          simp only [PAGE_SIZE]
          omega
        rw [ihPres start hdiff, hw]
      | succ j =>
        have harith : start + PAGE_SIZE + j * 4096 = start + (j + 1) * 4096 := by
          simp only [PAGE_SIZE]; omega
        have := ihEst j (by omega)
        rw [harith] at this
        exact this
    · intro w hw
      have h1 : ∀ i, i < n → ¬ same_path w (start + PAGE_SIZE + i * 4096) := by
        intro i hi
        have harith : start + PAGE_SIZE + i * 4096 = start + (i + 1) * 4096 := by
          simp only [PAGE_SIZE]; omega
        rw [harith]
        exact hw (i + 1) (by omega)
      have h0 : ¬ same_path w start := by
        have h00 := hw 0 (by omega)
        have : start + 0 * 4096 = start := by omega
        rw [this] at h00
        exact h00
      rw [ihPres w h1, stPres w h0]
    · intro f hf1 hf2
      by_cases hc : f < a1.next_frame
      · exact ihPers _ (stNew f hf1 hc)
      · exact ihNew f (by omega) hf2
    · exact fun t ht => ihPers t (stPers t ht)

/-- C8: for a page-table tree built by this module (invariant `PTInv`),
a successful `map_region_identity` makes every page of the region translate
to itself, and every frame the operation drew from the allocator has become
an intermediate (branch) table of the tree — no data frame is allocated;
the allocator bound is untouched. -/
theorem C8_identity_region (mem : Memory) (root start size : Nat)
    (kind : MemoryAreaType) (alloc : SimpleFrameAllocator)
    (hinv : PTInv mem root alloc.next_frame)
    (hend : alloc.end_frame ≤ 2 ^ 44)
    (hsize : size % 4096 = 0)
    (hbound : start + size ≤ 2 ^ 39)
    (hok : (map_region_identity mem root start size kind alloc).1 = Except.ok ()) :
    (∀ i, i < region_page_count size →
      walk_page_table (map_region_identity mem root start size kind alloc).2.1 root
        (start + i * 4096) = some (start + i * 4096)) ∧
    (∀ f, alloc.next_frame ≤ f →
      f < (map_region_identity mem root start size kind alloc).2.2.next_frame →
      is_branch_target (map_region_identity mem root start size kind alloc).2.1 root
        (f * 4096)) ∧
    (map_region_identity mem root start size kind alloc).2.2.end_frame =
      alloc.end_frame := by
  have hfl : kind.default_flags < 256 := by cases kind <;> decide
  have hpc : region_page_count size * 4096 ≤ size := by
    unfold region_page_count PAGE_SIZE USIZE_CARD
    rw [Nat.mod_eq_of_lt (by omega)]
    omega
  have hbound' : start + region_page_count size * 4096 ≤ 2 ^ 39 := by omega
  obtain ⟨hEnd, _, _, hEst, _, hNew, _⟩ :=
    map_pages_identity_spec root kind.default_flags hfl (region_page_count size)
      mem alloc start hinv hend hbound' hok
  exact ⟨hEst, hNew, hEnd⟩

/-- C8 witness: identity-mapping two pages at `0x80200000` over a zeroed
root; both pages then walk to themselves, the two consumed frames are
branch tables, and the allocator bound is unchanged. -/
theorem C8_identity_region_witness :
    walk_page_table
      (map_region_identity (fun _ _ => 0) 0x80000000 0x80200000 0x2000
        MemoryAreaType.Code ⟨0x81000, 0x82000⟩).2.1 0x80000000 0x80200000 =
      some 0x80200000 ∧
    walk_page_table
      (map_region_identity (fun _ _ => 0) 0x80000000 0x80200000 0x2000
        MemoryAreaType.Code ⟨0x81000, 0x82000⟩).2.1 0x80000000 0x80201000 =
      some 0x80201000 ∧
    is_branch_target
      (map_region_identity (fun _ _ => 0) 0x80000000 0x80200000 0x2000
        MemoryAreaType.Code ⟨0x81000, 0x82000⟩).2.1 0x80000000 0x81000000 ∧
    (map_region_identity (fun _ _ => 0) 0x80000000 0x80200000 0x2000
      MemoryAreaType.Code ⟨0x81000, 0x82000⟩).2.2.end_frame = 0x82000 := by
  have h := C8_identity_region (fun _ _ => 0) 0x80000000 0x80200000 0x2000
    MemoryAreaType.Code ⟨0x81000, 0x82000⟩
    (PTInv_of_zeroed _ _ _ (fun _ => rfl) (by norm_num))
    (by norm_num) (by norm_num) (by norm_num) rfl
  refine ⟨?_, ?_, ?_, h.2.2⟩
  · exact h.1 0 (by decide)
  · exact h.1 1 (by decide)
  · exact h.2.1 0x81000 (by norm_num) (by decide)

end ErrorOS
